import Mathlib

/-!
# Verification of the car-details web scraper

A shallow embedding, in Lean 4, of the crawl-and-merge orchestrator of the
`car-details-web-scraper` repository, together with theorems settling the
frozen claims about it.

The repository has three near-duplicate TypeScript programs:

* `scraper.ts`, first program (the *name-SKU variant*): single catalog walk,
  SKU derived from the product name, stock and one image taken from the
  listing page, only the manufacturer code fetched from the detail page.
* `scraper.ts`, second program (the *URL-SKU variant*): single catalog walk,
  SKU parsed from the trailing numeric path segment of the product URL,
  stock and the full image set fetched from the detail page.
* `category-specific-scraper.ts` (the *grouped variant*): one filtered
  catalog walk per (brand, model, year-range) leaf, with a global item
  budget and per-brand batch persistence to a CSV file.

Modelling conventions:

* JavaScript strings are modelled as their character sequences, `List Char`
  (abbreviated `Str`); string literals enter the model through `String.data`.
* Network fetches and HTML extraction are external collaborators; they are
  modelled as explicit environment functions (URL to extraction result).
  A fetch/parse failure is the environment returning `none` / an empty page,
  exactly the value the corresponding `catch` block produces in the source.
* JavaScript numbers that the claims never inspect numerically (prices) are
  modelled as `ℚ`; `Number.prototype.toString` is modelled by an executable
  rendering function whose exact output no claim depends on.
* JavaScript truthiness on nullable strings (`null` and `""` are falsy) is
  modelled by `jsTruthy`; `x || y` on such values by `jsOr`.
* `\s` / `trim()` whitespace is modelled by `Char.isWhitespace`
  (space, tab, CR, LF — the characters that occur in this domain).
* The `while` loops of the pagination walkers are modelled by structural
  recursion on a fuel argument.  For `scrapeAllPages` the fuel is exactly
  the remaining page budget `MAX_CATALOG_PAGES - catalogPageCount`, so the
  model is total without any artificial cut-off.  `scrapeSingleCar` has no
  page budget in the source (its loop is bounded only by
  `MAX_PRODUCTS_PER_CAR = Infinity`), so its model takes an explicit
  observation fuel and reports whether the loop terminated on its own.
-/

set_option maxRecDepth 8192

/-- JavaScript strings, modelled as their character sequences. -/
abbrev Str : Type := List Char

/-- Truthiness of a nullable JavaScript string: `null` and `""` are falsy. -/
def jsTruthy : Option Str → Bool
  | none => false
  | some s => !s.isEmpty

/-- `x || d` for a nullable JavaScript string `x` and a default `d`. -/
def jsOr (x : Option Str) (d : Str) : Str :=
  match x with
  | none => d
  | some s => if s.isEmpty then d else s

/-- `String.prototype.trim()`: strip leading and trailing whitespace. -/
def jsTrim (s : Str) : Str :=
  ((s.dropWhile Char.isWhitespace).reverse.dropWhile Char.isWhitespace).reverse

/-- `String.prototype.includes(needle)`: substring test. -/
def jsIncludes (s needle : Str) : Bool :=
  needle.isPrefixOf s ||
    match s with
    | [] => false
    | _ :: t => jsIncludes t needle

/-- The characters of `s` after the first occurrence of `needle`, if any
(the tail used by a regex that begins with a literal). -/
def findAfter (needle s : Str) : Option Str :=
  if needle.isPrefixOf s then some (s.drop needle.length)
  else
    match s with
    | [] => none
    | _ :: t => findAfter needle t

/-- `String.prototype.split(sep)` for a one-character separator: the list of
(possibly empty) segments.  Always returns at least one segment. -/
def jsSplitChar (sep : Char) : Str → List Str
  | [] => [[]]
  | c :: t =>
    match jsSplitChar sep t with
    | [] => [[c]]
    | h :: r => if c = sep then [] :: h :: r else (c :: h) :: r

/-- `Array.prototype.join(sep)` / `Papa.unparse`'s row joining. -/
def jsJoin (sep : Str) : List Str → Str
  | [] => []
  | [s] => s
  | s :: t :: r => s ++ sep ++ jsJoin sep (t :: r)

/-- `String.prototype.replace(needle, repl)` with a plain-string pattern:
replaces only the first occurrence. -/
def jsReplaceFirst (needle repl : Str) (s : Str) : Str :=
  if needle.isPrefixOf s then repl ++ s.drop needle.length
  else
    match s with
    | [] => []
    | c :: t => c :: jsReplaceFirst needle repl t

/-- `Number(n).toString()` for a natural number. -/
def natToStr (n : Nat) : Str := (toString n).data

/-- Rendering of a numeric value (`Number.prototype.toString`); no claim
depends on the exact digits produced. -/
def numToStr (q : ℚ) : Str := (toString q).data

/-! ## `scraper.ts` — the two single-catalog variants

Constants of `scraper.ts` (both programs). -/

def MAX_CATALOG_PAGES : Nat := 1000

/-- Listing-page summary of the name-SKU variant
(`Omit<Product, "manufacturerCode">` of the first `scraper.ts` program). -/
structure BaseInfoV1 where
  sku : Option Str
  siteCode : Option Str
  name : Option Str
  price : Option ℚ
  imageUrl : Option Str
  productPageUrl : Option Str
  isInStock : Bool
deriving DecidableEq

/-- `Product` of the name-SKU variant. -/
structure ProductV1 where
  sku : Option Str
  siteCode : Option Str
  name : Option Str
  price : Option ℚ
  imageUrl : Option Str
  productPageUrl : Option Str
  manufacturerCode : Option Str
  isInStock : Bool
deriving DecidableEq

/-- `{...baseInfo, manufacturerCode}` of the name-SKU variant. -/
def withManufacturerCode (b : BaseInfoV1) (mc : Option Str) : ProductV1 :=
  ⟨b.sku, b.siteCode, b.name, b.price, b.imageUrl, b.productPageUrl, mc, b.isInStock⟩

/-- The per-product body of the `scrapeAllPages` loop of the name-SKU variant:
a summary without a (truthy) product-page URL is pushed with a null
manufacturer code; otherwise the detail page is fetched (`det`, which yields
`none` on fetch failure) and the result merged in.  Every summary yields a
product. -/
def mergeSummariesV1 (det : Str → Option Str) (base : List BaseInfoV1) : List ProductV1 :=
  base.map fun b =>
    match b.productPageUrl with
    | none => withManufacturerCode b none
    | some u => if u.isEmpty then withManufacturerCode b none
                else withManufacturerCode b (det u)

/-- Listing-page summary of the URL-SKU variant
(`Omit<Product, "manufacturerCode" | "isInStock" | "imageUrls">`). -/
structure SummaryV2 where
  sku : Option Str
  siteCode : Option Str
  name : Option Str
  price : Option ℚ
  productPageUrl : Option Str
deriving DecidableEq

/-- `Product` of the URL-SKU variant. -/
structure ProductV2 where
  sku : Option Str
  siteCode : Option Str
  name : Option Str
  price : Option ℚ
  imageUrls : List Str
  productPageUrl : Option Str
  manufacturerCode : Option Str
  isInStock : Bool
deriving DecidableEq

/-- Result of `scrapeProductDetails` of the URL-SKU variant (a fetch failure
produces `⟨none, false, []⟩`, exactly what the `catch` block returns). -/
structure DetailResultV2 where
  manufacturerCode : Option Str
  isInStock : Bool
  imageUrls : List Str
deriving DecidableEq

/-- The per-product body of the `scrapeAllPages` loop of the URL-SKU variant:
a summary without a product-page URL is skipped with `continue` — it is NOT
pushed onto `allProducts`.  Otherwise the detail result is merged in. -/
def mergeSummariesV2 (det : Str → DetailResultV2) (base : List SummaryV2) : List ProductV2 :=
  base.filterMap fun b =>
    match b.productPageUrl with
    | none => none
    | some u =>
      if u.isEmpty then none
      else
        let d := det u
        some ⟨b.sku, b.siteCode, b.name, b.price, d.imageUrls, b.productPageUrl,
              d.manufacturerCode, d.isInStock⟩

/-! ### Listing extraction of the URL-SKU variant (`scrapeCatalogPage`) -/

/-- The raw values the HTML queries produce for one `.product-grid .item`. -/
structure CatalogItemV2 where
  rawName : Str
  rawCode : Str
  priceAttr : Option Str
  hrefAttr : Option Str

/-- `x || null` on a nullable string (the `sku || null` normalizations of the
pushed record). -/
def jsOrNull (x : Option Str) : Option Str :=
  match x with
  | none => none
  | some s => if s.isEmpty then none else some s

def detalasKodsLabel : Str := "Detaļas kods:".data

/-- `codeText.match(/Detaļas kods:\s*(.*)/)`, returning the capture group:
the greedy `\s*` consumes every whitespace character after the label and
`(.*)` matches the remainder of the line. -/
def matchDetalasKods (s : Str) : Option Str :=
  (findAfter detalasKodsLabel s).map fun rest =>
    (rest.dropWhile Char.isWhitespace).takeWhile fun c => !(c = '\n' ∨ c = '\r')

/-- The `siteCode` computation of `scrapeCatalogPage`. -/
def extractSiteCode (rawCode : Str) : Option Str :=
  let codeText := jsTrim rawCode
  if codeText.isEmpty then none
  else
    match matchDetalasKods codeText with
    | none => none
    | some g => if g.isEmpty then none else some (jsTrim g)

/-- `productElement.find(".product-name").text().trim() || null`. -/
def extractName (rawName : Str) : Option Str :=
  let t := jsTrim rawName
  if t.isEmpty then none else some t

/-- The `price` computation: `parseFloat` plus the `isNaN` guard are
abstracted as `jsParseFloat` (returning `none` for NaN). -/
def extractPrice (jsParseFloat : Str → Option ℚ) (priceAttr : Option Str) : Option ℚ :=
  match priceAttr with
  | none => none
  | some s => if s.isEmpty then none else jsParseFloat s

/-- The SKU parsed from a resolved product URL (the inner block of the
URL-SKU variant's `scrapeCatalogPage`): `productPageUrl.split("/")`, then
`urlParts[urlParts.length - 1] || urlParts[urlParts.length - 2]` (JS returns
`undefined` when the index is out of range), accepted only when it passes
`/^\d+$/`. -/
def skuFromUrl (u : Str) : Option Str :=
  let urlParts := jsSplitChar '/' u
  let lastSeg := (urlParts.getLast?).getD []
  let potentialId : Option Str :=
    if !lastSeg.isEmpty then some lastSeg
    else if urlParts.length ≥ 2 then urlParts.get? (urlParts.length - 2)
    else none
  match potentialId with
  | none => none
  | some pid => if !pid.isEmpty && pid.all Char.isDigit then some pid else none

/-- The `productPageUrl` and `sku` computation of the URL-SKU variant.
`resolve` models `new URL(rel, BASE_URL).toString()` (`none` = the
constructor threw, landing in the `catch` that leaves both fields null). -/
def extractUrlAndSku (resolve : Str → Option Str) (hrefAttr : Option Str) :
    Option Str × Option Str :=
  match hrefAttr with
  | none => (none, none)
  | some rel =>
    if rel.isEmpty then (none, none)
    else
      match resolve rel with
      | none => (none, none)
      | some u => (some u, skuFromUrl u)

/-- The per-item body of `scrapeCatalogPage` of the URL-SKU variant: the item
is pushed onto `productsBaseInfo` iff
`name || siteCode || sku || price !== null || productPageUrl`. -/
def extractCatalogItemV2 (resolve : Str → Option Str) (jsParseFloat : Str → Option ℚ)
    (item : CatalogItemV2) : Option SummaryV2 :=
  let name := extractName item.rawName
  let siteCode := extractSiteCode item.rawCode
  let price := extractPrice jsParseFloat item.priceAttr
  let us := extractUrlAndSku resolve item.hrefAttr
  if jsTruthy name || jsTruthy siteCode || jsTruthy us.2 || price.isSome || jsTruthy us.1
  then some ⟨jsOrNull us.2, jsOrNull siteCode, jsOrNull name, price, jsOrNull us.1⟩
  else none

/-! ### Detail-page image extraction of the URL-SKU variant -/

def BASE_URL : Str := "https://www.fastdeliverycarparts.com".data

def placeholderFilename : Str := "default-image.png".data

def placeholderPath : Str := "/img/default-image.png".data

/-- `url.replace(/__\d+\//, "")` at a match starting here: the remainder
after `__<digits>/`, if the pattern matches at the head. -/
def stripUnderscoreDir : Str → Option Str
  | '_' :: '_' :: rest =>
    let ds := rest.takeWhile Char.isDigit
    if ds.isEmpty then none
    else
      match rest.drop ds.length with
      | '/' :: tail => some tail
      | _ => none
  | _ => none

/-- `url.replace(/__\d+\//, "")`: delete the first `__<digits>/` infix. -/
def removeUnderscoreDir : Str → Str
  | [] => []
  | c :: t =>
    match stripUnderscoreDir (c :: t) with
    | some tail => tail
    | none => c :: removeUnderscoreDir t

/-- The raw values the HTML queries produce on one detail page: the main
picture's `src` and each thumb's `(data-path, data-filename)` pair. -/
structure DetailPageV2 where
  mainImgSrc : Option Str
  thumbs : List (Option Str × Option Str)

/-- The main-image step of `scrapeProductDetails` (URL-SKU variant): resolve
`src`, strip the `__<digits>/` caching directory, drop it if it is the
placeholder; returns the retained `mainImageUrl` and the initial
`imageUrls` accumulator. -/
def scanMainImage (resolve : Str → Option Str) (src? : Option Str) :
    Option Str × List Str :=
  match src? with
  | none => (none, [])
  | some src =>
    if src.isEmpty then (none, [])
    else
      match resolve src with
      | none => (none, [])
      | some u0 =>
        let u := removeUnderscoreDir u0
        if jsIncludes u placeholderFilename then (none, []) else (some u, [u])

/-- The per-thumb step: a thumb with both `data-path` and `data-filename` is
resolved and pushed unless it is the placeholder, equals `mainImageUrl`, or
is already in `imageUrls`. -/
def addThumb (resolve : Str → Option Str) (mainImageUrl : Option Str)
    (acc : List Str) (thumb : Option Str × Option Str) : List Str :=
  match thumb with
  | (some path, some file) =>
    if path.isEmpty || file.isEmpty then acc
    else
      match resolve (path ++ file) with
      | none => acc
      | some u =>
        if jsIncludes u placeholderFilename then acc
        else if some u = mainImageUrl then acc
        else if u ∈ acc then acc
        else acc ++ [u]
  | _ => acc

/-- `imageUrls` as accumulated by the main-image and thumb scans, before the
empty-set fallback. -/
def scanDetailImages (resolve : Str → Option Str) (page : DetailPageV2) : List Str :=
  let m := scanMainImage resolve page.mainImgSrc
  page.thumbs.foldl (addThumb resolve m.1) m.2

/-- The final `imageUrls` of `scrapeProductDetails` (URL-SKU variant): if the
scan produced nothing, the placeholder URL is synthesized (the empty `catch`
swallows a resolution failure). -/
def detailImageUrls (resolve : Str → Option Str) (page : DetailPageV2) : List Str :=
  let imgs := scanDetailImages resolve page
  if imgs.isEmpty then
    match resolve placeholderPath with
    | some u => [u]
    | none => []
  else imgs

/-! ### The pagination walker of `scrapeAllPages` (both `scraper.ts` variants)

The walk is generic in the summary/product types and in the per-page merge
(the two variants differ only there).  `env` abstracts `scrapeCatalogPage`:
for a URL it yields the extracted summaries and the resolved next-page URL
(a fetch failure yields `([], none)`, the `catch` result). -/

structure WalkResult (π : Type) where
  products : List π
  pages : Nat

/-- The `while (currentCatalogPageUrl && catalogPageCount < MAX_CATALOG_PAGES)`
loop.  The fuel is the remaining page budget
`MAX_CATALOG_PAGES - catalogPageCount`, so fuel `0` is exactly the loop
condition `catalogPageCount < MAX_CATALOG_PAGES` failing.  Checked in order:
the empty-page stop (`productsBaseInfo.length === 0 && catalogPageCount > 1`),
then the merge of the page's summaries, then the cycle guard
(`nextPageUrl === currentCatalogPageUrl`). -/
def walkGo {σ π : Type} (merge : List σ → List π) (env : Str → List σ × Option Str) :
    Nat → Option Str → Nat → List π → WalkResult π
  | 0, _, count, acc => ⟨acc, count⟩
  | _ + 1, none, count, acc => ⟨acc, count⟩
  | fuel + 1, some u, count, acc =>
    let count' := count + 1
    let pr := env u
    if pr.1.isEmpty ∧ count' > 1 then ⟨acc, count'⟩
    else
      let acc' := acc ++ merge pr.1
      if pr.2 = some u then ⟨acc', count'⟩
      else walkGo merge env fuel pr.2 count' acc'

structure CatalogRunResult (π : Type) where
  products : List π
  pages : Nat
  ceilingWarned : Bool

/-- `scrapeAllPages` up to CSV generation: the full walk from the start URL,
plus the post-loop `if (catalogPageCount >= MAX_CATALOG_PAGES) console.warn`. -/
def scrapeAllPages {σ π : Type} (merge : List σ → List π)
    (env : Str → List σ × Option Str) (start : Str) : CatalogRunResult π :=
  let w := walkGo merge env MAX_CATALOG_PAGES (some start) 0 []
  ⟨w.products, w.pages, decide (w.pages ≥ MAX_CATALOG_PAGES)⟩

/-! ## `category-specific-scraper.ts` — the grouped variant -/

/-- The repository's configured global item budget (`MAX_TOTAL_PRODUCTS`).
Theorems about the budget quantify over the configured value. -/
def MAX_TOTAL_PRODUCTS : Nat := 1500

/-- `Product` of the grouped variant. -/
structure ProductC where
  sku : Option Str
  siteCode : Option Str
  name : Option Str
  price : Option ℚ
  imageUrl : Option Str
  productPageUrl : Option Str
  manufacturerCode : Option Str
  isInStock : Bool
  brandCode : Option Str
  modelName : Option Str
  yearRange : Option Str
deriving DecidableEq

/-- The per-product body of the `scrapeSingleCar` loop: a product with a
truthy page URL has its manufacturer code fetched and assigned in place;
either way the product is pushed onto `carProducts`. -/
def attachManufacturerCode (det : Str → Option Str) (p : ProductC) : ProductC :=
  match p.productPageUrl with
  | none => p
  | some u => if u.isEmpty then p else { p with manufacturerCode := det u }

structure CarWalkResult where
  products : List ProductC
  pages : Nat
  finished : Bool

/-- The `while (currentCarCatalogUrl && productCountForCar < MAX_PRODUCTS_PER_CAR)`
loop of `scrapeSingleCar`.  `MAX_PRODUCTS_PER_CAR = Infinity`, so the count
condition is always true and the two in-loop cap checks never fire; the loop
has NO page ceiling (`pageCountForCar` is counted but never compared) and NO
cycle guard.  The model observes the loop for `fuel` iterations; `finished`
records whether the loop exited on its own within that window.  `env`
abstracts `scrapeCarCatalogPage` (summaries already carry the brand, model
and year-range of this leaf). -/
def scrapeSingleCarGo (det : Str → Option Str) (env : Str → List ProductC × Option Str) :
    Nat → Option Str → Nat → List ProductC → CarWalkResult
  | 0, none, pageCount, acc => ⟨acc, pageCount, true⟩
  | 0, some _, pageCount, acc => ⟨acc, pageCount, false⟩
  | _ + 1, none, pageCount, acc => ⟨acc, pageCount, true⟩
  | fuel + 1, some u, pageCount, acc =>
    let pageCount' := pageCount + 1
    let pr := env u
    if pr.1.isEmpty ∧ pageCount' > 1 then ⟨acc, pageCount', true⟩
    else scrapeSingleCarGo det env fuel pr.2 pageCount'
      (acc ++ pr.1.map (attachManufacturerCode det))

/-! ### CSV serialization (`convertBatchToWooCommerceCSV` / `Papa.unparse`) -/

def comma : Str := [',']

def CRLF : Str := ['\r', '\n']

/-- Papa's field quoting with `quotes: true`: every `"` is escaped to `""`
and the field is wrapped in quotes. -/
def jsQuote (s : Str) : Str :=
  '"' :: ((s.flatMap fun c => if c = '"' then ['"', '"'] else [c]) ++ ['"'])

/-- The 39 column names of `WooCommerceProductRow`, in declaration order. -/
def headerNames : List Str :=
  ["ID".data, "Type".data, "SKU".data, "Name".data, "Published".data,
   "Is featured?".data, "Visibility in catalog".data, "Short description".data,
   "Description".data, "Date sale price starts".data, "Date sale price ends".data,
   "Tax status".data, "Tax class".data, "In stock?".data, "Stock".data,
   "Low stock amount".data, "Backorders allowed?".data, "Sold individually?".data,
   "Weight (kg)".data, "Length (cm)".data, "Width (cm)".data, "Height (cm)".data,
   "Allow customer reviews?".data, "Purchase note".data, "Sale price".data,
   "Regular price".data, "Categories".data, "Tags".data, "Shipping class".data,
   "Images".data, "Download limit".data, "Download expiry days".data,
   "Parent".data, "Grouped products".data, "Upsells".data, "Cross-sells".data,
   "External URL".data, "Button text".data, "Position".data]

/-- The serialized header row. -/
def headerLine : Str := jsJoin comma (headerNames.map jsQuote)

/-- `BRAND_CODE_TO_NAME_MAP` (note the literal `"BU "` key of the source). -/
def BRAND_CODE_TO_NAME_MAP : List (Str × Str) :=
  [("AC".data, "Acura".data), ("AF".data, "Alfa Romeo".data), ("AD".data, "Audi".data),
   ("AT".data, "Austin".data), ("BMW".data, "BMW".data), ("BU ".data, "Buick".data),
   ("CD".data, "Cadillac".data), ("CV".data, "Chevrolet".data), ("CH".data, "Chrysler".data),
   ("CT".data, "Citroen".data), ("DC".data, "Dacia".data), ("DA".data, "Daewoo".data),
   ("DAF".data, "DAF".data), ("DH".data, "Daihatsu".data), ("DG".data, "Dodge".data),
   ("DS".data, "DS".data), ("FT".data, "Fiat".data), ("FD".data, "Ford".data),
   ("HN".data, "Honda".data), ("HUMMER".data, "Hummer".data), ("HY".data, "Hyundai".data),
   ("IN".data, "Infiniti".data), ("IS".data, "Isuzu".data), ("IV".data, "Iveco".data),
   ("JG".data, "Jaguar".data), ("JP".data, "Jeep".data), ("KS".data, "Kassbohrer".data),
   ("KIA".data, "KIA".data), ("LN".data, "Lancia".data), ("LR".data, "Land Rover".data),
   ("LX".data, "Lexus".data), ("LC".data, "Lincoln".data), ("MA".data, "MA".data),
   ("MAN".data, "MAN".data), ("MZ".data, "Mazda".data), ("MB".data, "Mercedes-Benz".data),
   ("MINI".data, "Mini".data), ("MT".data, "Mitsubishi".data), ("MOS".data, "Moskvitch".data),
   ("NS".data, "Nissan".data), ("OL".data, "Oldsmobile".data), ("OP".data, "Opel".data),
   ("PG".data, "Peugeot".data), ("PL".data, "Plymouth".data), ("PT".data, "Pontiac".data),
   ("PO".data, "Porsche".data), ("RN".data, "Renault".data), ("RO".data, "Rover".data),
   ("SAAB".data, "SAAB".data), ("SC".data, "Scania".data), ("SE".data, "Seat".data),
   ("SETRA".data, "Setra".data), ("SK".data, "Skoda".data), ("SMART".data, "Smart".data),
   ("SY".data, "SsangYong".data), ("SB".data, "Subaru".data), ("SZ".data, "Suzuki".data),
   ("TESLA".data, "Tesla".data), ("TT".data, "Toyota".data), ("TRIUMPH".data, "TRIUMPH".data),
   ("VAZ".data, "VAZ".data), ("VW".data, "Volkswagen".data), ("VV".data, "Volvo".data),
   ("ZAZ".data, "Zaz".data)]

/-- `BRAND_CODE_TO_NAME_MAP[bc]`. -/
def lookupBrandName (bc : Str) : Option Str :=
  (BRAND_CODE_TO_NAME_MAP.find? fun e => decide (e.1 = bc)).map fun e => e.2

/-- The `categoryString` computation of `convertBatchToWooCommerceCSV`:
brand display name (map value `|| brandCode`), model name and year range
(with the first `->` replaced by `-`), joined by `" > "` with empty segments
skipped. -/
def categoryString (p : ProductC) : Str :=
  let brandName := match p.brandCode with
    | none => []
    | some bc => if bc.isEmpty then [] else jsOr (lookupBrandName bc) bc
  let s1 := if brandName.isEmpty then [] else brandName
  let s2 := match p.modelName with
    | none => s1
    | some m => if m.isEmpty then s1
                else s1 ++ (if s1.isEmpty then [] else " > ".data) ++ m
  match p.yearRange with
  | none => s2
  | some y => if y.isEmpty then s2
              else s2 ++ (if s2.isEmpty then [] else " > ".data) ++
                jsReplaceFirst "->".data "-".data y

/-- The 39 field values of one `WooCommerceProductRow`, in column order
(`index` is the product's position within its batch). -/
def rowFields (index : Nat) (p : ProductC) : List Str :=
  [ [],
    "simple".data,
    jsOr p.sku ("MISSING-SKU-".data ++ jsOr p.siteCode (natToStr index)),
    jsOr p.name ("Unnamed Product ".data ++ jsOr p.siteCode (natToStr index)),
    "1".data,
    "0".data,
    "visible".data,
    [],
    "Manufacturer Code: ".data ++ jsOr p.manufacturerCode "N/A".data ++
      ['\n'] ++ "Site Code: ".data ++ jsOr p.siteCode "N/A".data,
    [],
    [],
    "taxable".data,
    [],
    if p.isInStock then "1".data else "0".data,
    [],
    [],
    "0".data,
    "0".data,
    [],
    [],
    [],
    [],
    "1".data,
    [],
    [],
    (match p.price with | none => [] | some q => numToStr q),
    categoryString p,
    [],
    [],
    jsOr p.imageUrl [],
    [],
    [],
    [],
    [],
    [],
    [],
    [],
    [],
    "0".data ]

/-- One serialized data row. -/
def rowLine (index : Nat) (p : ProductC) : Str :=
  jsJoin comma ((rowFields index p).map jsQuote)

/-- `Array.prototype.map`'s `(product, index)` enumeration. -/
def mapIdxFrom {α β : Type} (f : Nat → α → β) : Nat → List α → List β
  | _, [] => []
  | n, a :: l => f n a :: mapIdxFrom f (n + 1) l

/-- `convertBatchToWooCommerceCSV(productsBatch, includeHeader)`:
`Papa.unparse` with `newline: "\r\n"` joins the (optional) header row and
the data rows with CRLF, without a trailing newline. -/
def convertBatchToWooCommerceCSV (batch : List ProductC) (includeHeader : Bool) : Str :=
  jsJoin CRLF ((if includeHeader then [headerLine] else []) ++ mapIdxFrom rowLine 0 batch)

/-! ### The grouped run (`scrapeAllCars`) -/

/-- The observable actions of a grouped run, in program order. -/
inductive ScrapeEvent where
  | fetchedLeaf (brandCode modelName yearRange : Str)
  | truncatedFile
  | wroteFile
  | appendedFile
deriving DecidableEq

/-- The run-scoped state: the persisted output file's contents, the
`isHeaderWritten` flag, the batches persisted so far (instrumentation used
to state the claims), and the event trace. -/
structure RunState where
  file : Str
  isHeaderWritten : Bool
  batches : List (List ProductC)
  events : List ScrapeEvent
deriving DecidableEq

/-- The per-brand batch-save section of `scrapeAllCars` (the
`if (productsForThisBrand.length > 0)` block): the first save writes the
file with the header included; later saves serialize rows-only and append
them, prepending a CRLF only when the existing file is non-empty
(`fileStat.size > 0`) and skipping the append when the rows-only text trims
to nothing. -/
def saveBrandBatch (st : RunState) (batch : List ProductC) : RunState :=
  if batch.length > 0 then
    if !st.isHeaderWritten then
      { st with
        file := convertBatchToWooCommerceCSV batch true,
        isHeaderWritten := true,
        batches := st.batches ++ [batch],
        events := st.events ++ [.wroteFile] }
    else
      let dataRowsOnly := convertBatchToWooCommerceCSV batch false
      if (jsTrim dataRowsOnly).length > 0 then
        let prependNewline := if st.file.length > 0 then CRLF else []
        { st with
          file := st.file ++ prependNewline ++ dataRowsOnly,
          batches := st.batches ++ [batch],
          events := st.events ++ [.appendedFile] }
      else st
  else st

/-- How an inner loop of `scrapeAllCars` was left. -/
inductive InnerExit where
  | completed
  | brandBreak
  | modelBreak
deriving DecidableEq

structure InnerResult where
  batch : List ProductC
  total : Nat
  events : List ScrapeEvent
  exit : InnerExit

/-- The `for (const yearRange of yearRanges)` loop: before each leaf the
global budget is checked (`break brandLoop`, which skips the batch save);
then the leaf is scraped, its result sliced to the remaining budget, and
appended to the brand batch; if the budget is now exhausted,
`break modelLoop` (which still saves the batch).  `leafEnv` abstracts
`scrapeSingleCar` for one (brand, model, year-range) leaf. -/
def yearLoop (maxTotal : Nat) (leafEnv : Str → Str → Str → List ProductC) (b m : Str) :
    List Str → Nat → List ProductC → List ScrapeEvent → InnerResult
  | [], total, batch, evs => ⟨batch, total, evs, .completed⟩
  | y :: ys, total, batch, evs =>
    if total ≥ maxTotal then ⟨batch, total, evs, .brandBreak⟩
    else
      let productsForThisCarModelYear := leafEnv b m y
      let evs' := evs ++ [.fetchedLeaf b m y]
      let remainingSlots := maxTotal - total
      let productsToAdd := productsForThisCarModelYear.take remainingSlots
      let batch' := batch ++ productsToAdd
      let total' := total + productsToAdd.length
      if total' ≥ maxTotal then ⟨batch', total', evs', .modelBreak⟩
      else yearLoop maxTotal leafEnv b m ys total' batch' evs'

/-- The `modelLoop: for (const modelName in models)` loop, including the
post-year-loop budget check that breaks the model loop. -/
def modelLoop (maxTotal : Nat) (leafEnv : Str → Str → Str → List ProductC) (b : Str) :
    List (Str × List Str) → Nat → List ProductC → List ScrapeEvent → InnerResult
  | [], total, batch, evs => ⟨batch, total, evs, .completed⟩
  | (m, ys) :: ms, total, batch, evs =>
    let r := yearLoop maxTotal leafEnv b m ys total batch evs
    match r.exit with
    | .brandBreak => r
    | .modelBreak => r
    | .completed =>
      if r.total ≥ maxTotal then ⟨r.batch, r.total, r.events, .modelBreak⟩
      else modelLoop maxTotal leafEnv b ms r.total r.batch r.events

/-- The `brandLoop: for (const brandCode in brandModels)` loop.  A
`break brandLoop` raised at the pre-leaf budget check skips the batch save;
any other exit of the inner loops falls through to the save section, after
which the budget is re-checked (`break brandLoop` after saving). -/
def brandLoop (maxTotal : Nat) (leafEnv : Str → Str → Str → List ProductC) :
    List (Str × List (Str × List Str)) → Nat → RunState → Nat × RunState
  | [], total, st => (total, st)
  | (b, models) :: bs, total, st =>
    let r := modelLoop maxTotal leafEnv b models total [] st.events
    match r.exit with
    | .brandBreak => (r.total, { st with events := r.events })
    | .modelBreak | .completed =>
      let st' := saveBrandBatch { st with events := r.events } r.batch
      if r.total ≥ maxTotal then (r.total, st')
      else brandLoop maxTotal leafEnv bs r.total st'

/-- `brandModels`, the one-time brand → model → year-range tree. -/
abbrev BrandModelsData := List (Str × List (Str × List Str))

/-- `scrapeAllCars`: fetch and parse the brand/model tree (`none` = the
fetch or parse failed); on failure return at once — the output file is not
touched.  On success truncate the output file to empty
(`fs.writeFile(OUTPUT_CSV_FILE, "")`) and run the brand loop.  Returns
`totalProductsScraped` and the final run state. -/
def scrapeAllCars (maxTotal : Nat) (brandModels? : Option BrandModelsData)
    (leafEnv : Str → Str → Str → List ProductC) (initFile : Str) : Nat × RunState :=
  match brandModels? with
  | none => (0, ⟨initFile, false, [], []⟩)
  | some brandModels =>
    brandLoop maxTotal leafEnv brandModels 0 ⟨[], false, [], [.truncatedFile]⟩

/-! ## Helper lemmas about the grouped run -/

theorem yearLoop_cons_stop {maxTotal : Nat} {leafEnv : Str → Str → Str → List ProductC}
    {b m y : Str} {ys : List Str} {total : Nat} {batch : List ProductC}
    {evs : List ScrapeEvent} (h : total ≥ maxTotal) :
    yearLoop maxTotal leafEnv b m (y :: ys) total batch evs =
      ⟨batch, total, evs, .brandBreak⟩ := by
  simp only [yearLoop, if_pos h]

theorem yearLoop_cons_last {maxTotal : Nat} {leafEnv : Str → Str → Str → List ProductC}
    {b m y : Str} {ys : List Str} {total : Nat} {batch : List ProductC}
    {evs : List ScrapeEvent} (h1 : ¬total ≥ maxTotal)
    (h2 : total + ((leafEnv b m y).take (maxTotal - total)).length ≥ maxTotal) :
    yearLoop maxTotal leafEnv b m (y :: ys) total batch evs =
      ⟨batch ++ (leafEnv b m y).take (maxTotal - total),
       total + ((leafEnv b m y).take (maxTotal - total)).length,
       evs ++ [.fetchedLeaf b m y], .modelBreak⟩ := by
  simp only [yearLoop, if_neg h1, if_pos h2]

theorem yearLoop_cons_go {maxTotal : Nat} {leafEnv : Str → Str → Str → List ProductC}
    {b m y : Str} {ys : List Str} {total : Nat} {batch : List ProductC}
    {evs : List ScrapeEvent} (h1 : ¬total ≥ maxTotal)
    (h2 : ¬total + ((leafEnv b m y).take (maxTotal - total)).length ≥ maxTotal) :
    yearLoop maxTotal leafEnv b m (y :: ys) total batch evs =
      yearLoop maxTotal leafEnv b m ys
        (total + ((leafEnv b m y).take (maxTotal - total)).length)
        (batch ++ (leafEnv b m y).take (maxTotal - total))
        (evs ++ [.fetchedLeaf b m y]) := by
  simp only [yearLoop, if_neg h1, if_neg h2]

theorem yearLoop_delta (maxTotal : Nat) (leafEnv : Str → Str → Str → List ProductC)
    (b m : Str) :
    ∀ (ys : List Str) (total : Nat) (batch : List ProductC) (evs : List ScrapeEvent),
      ∃ δ evt,
        (yearLoop maxTotal leafEnv b m ys total batch evs).batch = batch ++ δ ∧
        (yearLoop maxTotal leafEnv b m ys total batch evs).total = total + δ.length ∧
        (yearLoop maxTotal leafEnv b m ys total batch evs).events = evs ++ evt ∧
        (total ≤ maxTotal → (yearLoop maxTotal leafEnv b m ys total batch evs).total ≤ maxTotal) := by
  intro ys
  induction ys with
  | nil =>
    intro total batch evs
    exact ⟨[], [], by simp [yearLoop], by simp [yearLoop], by simp [yearLoop], fun h => h⟩
  | cons y ys ih =>
    intro total batch evs
    by_cases h1 : total ≥ maxTotal
    · exact ⟨[], [], by simp [yearLoop_cons_stop h1], by simp [yearLoop_cons_stop h1],
        by simp [yearLoop_cons_stop h1], fun h => by rw [yearLoop_cons_stop h1]; exact h⟩
    · have hlen : ((leafEnv b m y).take (maxTotal - total)).length ≤ maxTotal - total := by
        rw [List.length_take]
        exact Nat.min_le_left (maxTotal - total) (leafEnv b m y).length
      by_cases h2 : total + ((leafEnv b m y).take (maxTotal - total)).length ≥ maxTotal
      · refine ⟨(leafEnv b m y).take (maxTotal - total), [.fetchedLeaf b m y], ?_, ?_, ?_, ?_⟩
        · rw [yearLoop_cons_last h1 h2]
        · rw [yearLoop_cons_last h1 h2]
        · rw [yearLoop_cons_last h1 h2]
        · intro _
          rw [yearLoop_cons_last h1 h2]
          show total + ((leafEnv b m y).take (maxTotal - total)).length ≤ maxTotal
          omega
      · obtain ⟨δ, evt, hb, ht, he, hbd⟩ :=
          ih (total + ((leafEnv b m y).take (maxTotal - total)).length)
            (batch ++ (leafEnv b m y).take (maxTotal - total)) (evs ++ [.fetchedLeaf b m y])
        refine ⟨(leafEnv b m y).take (maxTotal - total) ++ δ, .fetchedLeaf b m y :: evt,
          ?_, ?_, ?_, ?_⟩
        · rw [yearLoop_cons_go h1 h2, hb, List.append_assoc]
        · rw [yearLoop_cons_go h1 h2, ht, List.length_append]
          omega
        · rw [yearLoop_cons_go h1 h2, he, List.append_assoc]
          rfl
        · intro _
          rw [yearLoop_cons_go h1 h2]
          exact hbd (by omega)

theorem modelLoop_delta (maxTotal : Nat) (leafEnv : Str → Str → Str → List ProductC)
    (b : Str) :
    ∀ (ms : List (Str × List Str)) (total : Nat) (batch : List ProductC)
      (evs : List ScrapeEvent),
      ∃ δ evt,
        (modelLoop maxTotal leafEnv b ms total batch evs).batch = batch ++ δ ∧
        (modelLoop maxTotal leafEnv b ms total batch evs).total = total + δ.length ∧
        (modelLoop maxTotal leafEnv b ms total batch evs).events = evs ++ evt ∧
        (total ≤ maxTotal → (modelLoop maxTotal leafEnv b ms total batch evs).total ≤ maxTotal) := by
  intro ms
  induction ms with
  | nil =>
    intro total batch evs
    exact ⟨[], [], by simp [modelLoop], by simp [modelLoop], by simp [modelLoop], fun h => h⟩
  | cons hd ms ih =>
    obtain ⟨m, ys⟩ := hd
    intro total batch evs
    obtain ⟨δ, evt, hb, ht, he, hbd⟩ := yearLoop_delta maxTotal leafEnv b m ys total batch evs
    cases hex : (yearLoop maxTotal leafEnv b m ys total batch evs).exit
    · -- completed
      by_cases h2 : (yearLoop maxTotal leafEnv b m ys total batch evs).total ≥ maxTotal
      · have heq : modelLoop maxTotal leafEnv b ((m, ys) :: ms) total batch evs =
            ⟨(yearLoop maxTotal leafEnv b m ys total batch evs).batch,
             (yearLoop maxTotal leafEnv b m ys total batch evs).total,
             (yearLoop maxTotal leafEnv b m ys total batch evs).events, .modelBreak⟩ := by
          simp only [modelLoop, hex, if_pos h2]
        exact ⟨δ, evt, by rw [heq]; exact hb, by rw [heq]; exact ht, by rw [heq]; exact he,
          fun h => by rw [heq]; exact hbd h⟩
      · have heq : modelLoop maxTotal leafEnv b ((m, ys) :: ms) total batch evs =
            modelLoop maxTotal leafEnv b ms
              (yearLoop maxTotal leafEnv b m ys total batch evs).total
              (yearLoop maxTotal leafEnv b m ys total batch evs).batch
              (yearLoop maxTotal leafEnv b m ys total batch evs).events := by
          simp only [modelLoop, hex, if_neg h2]
        obtain ⟨δ', evt', hb', ht', he', hbd'⟩ :=
          ih (yearLoop maxTotal leafEnv b m ys total batch evs).total
            (yearLoop maxTotal leafEnv b m ys total batch evs).batch
            (yearLoop maxTotal leafEnv b m ys total batch evs).events
        refine ⟨δ ++ δ', evt ++ evt', ?_, ?_, ?_, ?_⟩
        · rw [heq, hb', hb, List.append_assoc]
        · rw [heq, ht', ht, List.length_append]
          omega
        · rw [heq, he', he, List.append_assoc]
        · intro _
          rw [heq]
          exact hbd' (by omega)
    · -- brandBreak
      have heq : modelLoop maxTotal leafEnv b ((m, ys) :: ms) total batch evs =
          yearLoop maxTotal leafEnv b m ys total batch evs := by
        simp only [modelLoop, hex]
      exact ⟨δ, evt, by rw [heq]; exact hb, by rw [heq]; exact ht, by rw [heq]; exact he,
        fun h => by rw [heq]; exact hbd h⟩
    · -- modelBreak
      have heq : modelLoop maxTotal leafEnv b ((m, ys) :: ms) total batch evs =
          yearLoop maxTotal leafEnv b m ys total batch evs := by
        simp only [modelLoop, hex]
      exact ⟨δ, evt, by rw [heq]; exact hb, by rw [heq]; exact ht, by rw [heq]; exact he,
        fun h => by rw [heq]; exact hbd h⟩

theorem saveBrandBatch_flatten_le (st : RunState) (batch : List ProductC) :
    (saveBrandBatch st batch).batches.flatten.length ≤
      st.batches.flatten.length + batch.length := by
  by_cases h1 : batch.length > 0
  · by_cases h2 : (!st.isHeaderWritten) = true
    · simp [saveBrandBatch, h1, h2]
    · by_cases h3 : (jsTrim (convertBatchToWooCommerceCSV batch false)).length > 0
      · simp [saveBrandBatch, h1, h2, h3]
      · simp [saveBrandBatch, h1, h2, h3]
  · simp [saveBrandBatch, h1]

theorem saveBrandBatch_events_mono (st : RunState) (batch : List ProductC) :
    ∃ evt, (saveBrandBatch st batch).events = st.events ++ evt := by
  by_cases h1 : batch.length > 0
  · by_cases h2 : (!st.isHeaderWritten) = true
    · exact ⟨[ScrapeEvent.wroteFile], by simp [saveBrandBatch, h1, h2]⟩
    · by_cases h3 : (jsTrim (convertBatchToWooCommerceCSV batch false)).length > 0
      · exact ⟨[ScrapeEvent.appendedFile], by simp [saveBrandBatch, h1, h2, h3]⟩
      · exact ⟨[], by simp [saveBrandBatch, h1, h2, h3]⟩
  · exact ⟨[], by simp [saveBrandBatch, h1]⟩

theorem brandLoop_cons_break {maxTotal : Nat} {leafEnv : Str → Str → Str → List ProductC}
    {b : Str} {models : List (Str × List Str)} {bs : List (Str × List (Str × List Str))}
    {total : Nat} {st : RunState}
    (hex : (modelLoop maxTotal leafEnv b models total [] st.events).exit = .brandBreak) :
    brandLoop maxTotal leafEnv ((b, models) :: bs) total st =
      ((modelLoop maxTotal leafEnv b models total [] st.events).total,
       { st with events := (modelLoop maxTotal leafEnv b models total [] st.events).events }) := by
  simp only [brandLoop, hex]

theorem brandLoop_cons_save {maxTotal : Nat} {leafEnv : Str → Str → Str → List ProductC}
    {b : Str} {models : List (Str × List Str)} {bs : List (Str × List (Str × List Str))}
    {total : Nat} {st : RunState}
    (hex : (modelLoop maxTotal leafEnv b models total [] st.events).exit ≠ .brandBreak) :
    brandLoop maxTotal leafEnv ((b, models) :: bs) total st =
      (if (modelLoop maxTotal leafEnv b models total [] st.events).total ≥ maxTotal then
        ((modelLoop maxTotal leafEnv b models total [] st.events).total,
         saveBrandBatch { st with events := (modelLoop maxTotal leafEnv b models total [] st.events).events }
           (modelLoop maxTotal leafEnv b models total [] st.events).batch)
      else
        brandLoop maxTotal leafEnv bs (modelLoop maxTotal leafEnv b models total [] st.events).total
          (saveBrandBatch { st with events := (modelLoop maxTotal leafEnv b models total [] st.events).events }
            (modelLoop maxTotal leafEnv b models total [] st.events).batch)) := by
  cases hex2 : (modelLoop maxTotal leafEnv b models total [] st.events).exit
  · simp only [brandLoop, hex2]
  · exact absurd hex2 hex
  · simp only [brandLoop, hex2]

theorem brandLoop_flatten_le (maxTotal : Nat) (leafEnv : Str → Str → Str → List ProductC) :
    ∀ (bs : List (Str × List (Str × List Str))) (total : Nat) (st : RunState),
      total ≤ maxTotal → st.batches.flatten.length ≤ total →
      (brandLoop maxTotal leafEnv bs total st).2.batches.flatten.length ≤ maxTotal := by
  intro bs
  induction bs with
  | nil =>
    intro total st h1 h2
    simpa [brandLoop] using le_trans h2 h1
  | cons hd bs ih =>
    obtain ⟨b, models⟩ := hd
    intro total st h1 h2
    obtain ⟨δ, evt, hb, ht, he, hbd⟩ := modelLoop_delta maxTotal leafEnv b models total [] st.events
    have htot : (modelLoop maxTotal leafEnv b models total [] st.events).total ≤ maxTotal :=
      hbd h1
    have hTt : (modelLoop maxTotal leafEnv b models total [] st.events).total =
        total + (modelLoop maxTotal leafEnv b models total [] st.events).batch.length := by
      rw [ht, hb]
      simp
    have hsave : (saveBrandBatch
          { st with events := (modelLoop maxTotal leafEnv b models total [] st.events).events }
          (modelLoop maxTotal leafEnv b models total [] st.events).batch).batches.flatten.length ≤
        st.batches.flatten.length +
          (modelLoop maxTotal leafEnv b models total [] st.events).batch.length :=
      saveBrandBatch_flatten_le _ _
    by_cases hex : (modelLoop maxTotal leafEnv b models total [] st.events).exit = .brandBreak
    · rw [brandLoop_cons_break hex]
      show st.batches.flatten.length ≤ maxTotal
      omega
    · rw [brandLoop_cons_save hex]
      by_cases h2' : (modelLoop maxTotal leafEnv b models total [] st.events).total ≥ maxTotal
      · rw [if_pos h2']
        show (saveBrandBatch _ _).batches.flatten.length ≤ maxTotal
        omega
      · rw [if_neg h2']
        exact ih _ _ htot (by omega)

theorem brandLoop_events_mono (maxTotal : Nat) (leafEnv : Str → Str → Str → List ProductC) :
    ∀ (bs : List (Str × List (Str × List Str))) (total : Nat) (st : RunState),
      ∃ evt, (brandLoop maxTotal leafEnv bs total st).2.events = st.events ++ evt := by
  intro bs
  induction bs with
  | nil =>
    intro total st
    exact ⟨[], by simp [brandLoop]⟩
  | cons hd bs ih =>
    obtain ⟨b, models⟩ := hd
    intro total st
    obtain ⟨δ, evt, hb, ht, he, hbd⟩ := modelLoop_delta maxTotal leafEnv b models total [] st.events
    by_cases hex : (modelLoop maxTotal leafEnv b models total [] st.events).exit = .brandBreak
    · rw [brandLoop_cons_break hex]
      exact ⟨evt, he⟩
    · rw [brandLoop_cons_save hex]
      obtain ⟨evt2, he2⟩ := saveBrandBatch_events_mono
        { st with events := (modelLoop maxTotal leafEnv b models total [] st.events).events }
        (modelLoop maxTotal leafEnv b models total [] st.events).batch
      have he2' : (saveBrandBatch
          { st with events := (modelLoop maxTotal leafEnv b models total [] st.events).events }
          (modelLoop maxTotal leafEnv b models total [] st.events).batch).events =
          st.events ++ (evt ++ evt2) := by
        rw [he2]
        show (modelLoop maxTotal leafEnv b models total [] st.events).events ++ evt2 = _
        rw [he, List.append_assoc]
      by_cases h2 : (modelLoop maxTotal leafEnv b models total [] st.events).total ≥ maxTotal
      · rw [if_pos h2]
        exact ⟨evt ++ evt2, he2'⟩
      · rw [if_neg h2]
        obtain ⟨evt3, he3⟩ := ih (modelLoop maxTotal leafEnv b models total [] st.events).total
          (saveBrandBatch
            { st with events := (modelLoop maxTotal leafEnv b models total [] st.events).events }
            (modelLoop maxTotal leafEnv b models total [] st.events).batch)
        refine ⟨evt ++ evt2 ++ evt3, ?_⟩
        rw [he3, he2', List.append_assoc]

/-! ## Claim C1 — a summary with a missing item URL at the Detail Merge Stage -/

/-- A summary of the URL-SKU variant carrying a name but no product-page URL:
`scrapeCatalogPage` produces exactly this record for a catalog item whose
`.product-name` is `X` and which has no `.product_info a` link (the item
passes the inclusion test and is pushed with `productPageUrl: null` after the
"will still be included" warning). -/
def missingUrlSummary : SummaryV2 := ⟨none, none, some "X".data, none, none⟩

/-- The corresponding listing summary in the name-SKU variant. -/
def missingUrlBase : BaseInfoV1 :=
  ⟨some "X".data, none, some "X".data, none, none, none, false⟩

/-- C1.  The claim states that a summary with a null `productPageUrl` is still
emitted as a merged record with all detail fields null.  The name-SKU
variant does exactly that, but the URL-SKU variant's merge loop `continue`s
WITHOUT pushing the record: the summary is silently dropped from
`allProducts` (and hence from the CSV).  Evaluating both merge stages on the
same missing-URL summary exhibits the divergence. -/
theorem detailMerge_missingUrl_dropped_in_urlSku_variant :
    mergeSummariesV2 (fun _ => ⟨none, false, []⟩) [missingUrlSummary] = [] ∧
    mergeSummariesV1 (fun _ => none) [missingUrlBase] =
      [withManufacturerCode missingUrlBase none] ∧
    (withManufacturerCode missingUrlBase none).manufacturerCode = none := by
  exact ⟨rfl, rfl, rfl⟩

/-! ## Claim C8 — an empty batch append is a no-op -/

/-- C8.  Calling the batch-save section with an empty record sequence leaves
the run state — in particular the persisted output file — unchanged, and is
therefore idempotent. -/
theorem saveBrandBatch_empty_batch_noop (st : RunState) :
    saveBrandBatch st [] = st ∧ saveBrandBatch (saveBrandBatch st []) [] = st := by
  constructor <;> simp [saveBrandBatch]

/-! ## Claim C10 — file truncation happens exactly on configuration success -/

/-- C10.  If the one-time brand/model fetch or parse fails, `scrapeAllCars`
returns without touching the output file (no file event, contents left as
they were).  On success, the run is independent of the previous output file
contents, and its very first observable action — before any leaf is
scraped — is truncating the output file to empty. -/
theorem scrapeAllCars_truncation_discipline (maxTotal : Nat)
    (leafEnv : Str → Str → Str → List ProductC) (f g : Str) (tree : BrandModelsData) :
    ((scrapeAllCars maxTotal none leafEnv f).2.file = f ∧
      (scrapeAllCars maxTotal none leafEnv f).2.events = []) ∧
    scrapeAllCars maxTotal (some tree) leafEnv f =
      scrapeAllCars maxTotal (some tree) leafEnv g ∧
    ((scrapeAllCars maxTotal (some tree) leafEnv f).2.events).head? =
      some ScrapeEvent.truncatedFile := by
  refine ⟨⟨rfl, rfl⟩, rfl, ?_⟩
  obtain ⟨evt, hev⟩ := brandLoop_events_mono maxTotal leafEnv tree 0
    ⟨[], false, [], [.truncatedFile]⟩
  show (brandLoop maxTotal leafEnv tree 0 ⟨[], false, [], [.truncatedFile]⟩).2.events.head? = _
  rw [hev]
  rfl

/-! ## Claim C2 — the global budget is never exceeded and truncation is exact -/

/-- A concrete sample product of the grouped variant. -/
def sampleProductC (n : Nat) : ProductC :=
  ⟨some (natToStr n), none, some (natToStr n), none, none, none, none, false,
   some "B".data, some "M".data, some "Y".data⟩

/-- One brand with one model and two year-range leaves. -/
def twoLeafTree : BrandModelsData := [("B".data, [("M".data, ["Y1".data, "Y2".data])])]

/-- Each of the two leaves naturally yields four products. -/
def twoLeafEnv : Str → Str → Str → List ProductC := fun _ _ y =>
  if y = "Y1".data then
    [sampleProductC 1, sampleProductC 2, sampleProductC 3, sampleProductC 4]
  else
    [sampleProductC 5, sampleProductC 6, sampleProductC 7, sampleProductC 8]

/-- C2.  In every grouped run the number of product rows persisted never
exceeds the configured global budget; and the slice-to-remaining-budget
truncation is exact: with budget 5 and two leaves of four products each, the
first leaf contributes all four, the second is truncated to one, and exactly
five rows are persisted. -/
theorem scrapeAllCars_respects_global_budget :
    (∀ (maxTotal : Nat) (tree : BrandModelsData)
       (leafEnv : Str → Str → Str → List ProductC) (initFile : Str),
      (scrapeAllCars maxTotal (some tree) leafEnv initFile).2.batches.flatten.length ≤ maxTotal) ∧
    (scrapeAllCars 5 (some twoLeafTree) twoLeafEnv []).2.batches.flatten =
      [sampleProductC 1, sampleProductC 2, sampleProductC 3, sampleProductC 4,
       sampleProductC 5] ∧
    (scrapeAllCars 5 (some twoLeafTree) twoLeafEnv []).1 = 5 := by
  refine ⟨?_, by decide, by decide⟩
  intro maxTotal tree leafEnv initFile
  exact brandLoop_flatten_le maxTotal leafEnv tree 0 ⟨[], false, [], [.truncatedFile]⟩
    (Nat.zero_le _) (by simp)

/-! ## Helper lemmas about the pagination walkers -/

theorem walkGo_succ_some_stop {σ π : Type} {merge : List σ → List π}
    {env : Str → List σ × Option Str} {fuel count : Nat} {u : Str} {acc : List π}
    (h : (env u).1.isEmpty = true ∧ count + 1 > 1) :
    walkGo merge env (fuel + 1) (some u) count acc = ⟨acc, count + 1⟩ := by
  simp only [walkGo, if_pos h]

theorem walkGo_succ_some_cycle {σ π : Type} {merge : List σ → List π}
    {env : Str → List σ × Option Str} {fuel count : Nat} {u : Str} {acc : List π}
    (h : ¬((env u).1.isEmpty = true ∧ count + 1 > 1)) (h2 : (env u).2 = some u) :
    walkGo merge env (fuel + 1) (some u) count acc =
      ⟨acc ++ merge (env u).1, count + 1⟩ := by
  simp only [walkGo, if_neg h, if_pos h2]

theorem walkGo_succ_some_go {σ π : Type} {merge : List σ → List π}
    {env : Str → List σ × Option Str} {fuel count : Nat} {u : Str} {acc : List π}
    (h : ¬((env u).1.isEmpty = true ∧ count + 1 > 1)) (h2 : ¬(env u).2 = some u) :
    walkGo merge env (fuel + 1) (some u) count acc =
      walkGo merge env fuel (env u).2 (count + 1) (acc ++ merge (env u).1) := by
  simp only [walkGo, if_neg h, if_neg h2]

theorem walkGo_pages_ge {σ π : Type} (merge : List σ → List π)
    (env : Str → List σ × Option Str) :
    ∀ (fuel : Nat) (cur : Option Str) (count : Nat) (acc : List π),
      count ≤ (walkGo merge env fuel cur count acc).pages := by
  intro fuel
  induction fuel with
  | zero => intro cur count acc; exact le_refl _
  | succ fuel ih =>
    intro cur count acc
    cases cur with
    | none => exact le_refl _
    | some u =>
      by_cases h : (env u).1.isEmpty = true ∧ count + 1 > 1
      · rw [walkGo_succ_some_stop h]; exact Nat.le_succ _
      · by_cases h2 : (env u).2 = some u
        · rw [walkGo_succ_some_cycle h h2]; exact Nat.le_succ _
        · rw [walkGo_succ_some_go h h2]
          exact le_trans (Nat.le_succ _) (ih (env u).2 (count + 1) _)

theorem walkGo_pages_ge_one {σ π : Type} (merge : List σ → List π)
    (env : Str → List σ × Option Str) (fuel count : Nat) (u : Str) (acc : List π) :
    count + 1 ≤ (walkGo merge env (fuel + 1) (some u) count acc).pages := by
  by_cases h : (env u).1.isEmpty = true ∧ count + 1 > 1
  · rw [walkGo_succ_some_stop h]
  · by_cases h2 : (env u).2 = some u
    · rw [walkGo_succ_some_cycle h h2]
    · rw [walkGo_succ_some_go h h2]
      exact walkGo_pages_ge merge env fuel (env u).2 (count + 1) _

theorem walkGo_pages_le {σ π : Type} (merge : List σ → List π)
    (env : Str → List σ × Option Str) :
    ∀ (fuel : Nat) (cur : Option Str) (count : Nat) (acc : List π),
      (walkGo merge env fuel cur count acc).pages ≤ count + fuel := by
  intro fuel
  induction fuel with
  | zero => intro cur count acc; exact le_refl _
  | succ fuel ih =>
    intro cur count acc
    cases cur with
    | none => exact Nat.le_add_right _ _
    | some u =>
      by_cases h : (env u).1.isEmpty = true ∧ count + 1 > 1
      · rw [walkGo_succ_some_stop h]
        show count + 1 ≤ count + (fuel + 1)
        omega
      · by_cases h2 : (env u).2 = some u
        · rw [walkGo_succ_some_cycle h h2]
          show count + 1 ≤ count + (fuel + 1)
          omega
        · rw [walkGo_succ_some_go h h2]
          exact le_trans (ih (env u).2 (count + 1) _) (by omega)

theorem carGo_succ_some_stop {det : Str → Option Str} {env : Str → List ProductC × Option Str}
    {fuel pageCount : Nat} {u : Str} {acc : List ProductC}
    (h : (env u).1.isEmpty = true ∧ pageCount + 1 > 1) :
    scrapeSingleCarGo det env (fuel + 1) (some u) pageCount acc =
      ⟨acc, pageCount + 1, true⟩ := by
  simp only [scrapeSingleCarGo, if_pos h]

theorem carGo_succ_some_go {det : Str → Option Str} {env : Str → List ProductC × Option Str}
    {fuel pageCount : Nat} {u : Str} {acc : List ProductC}
    (h : ¬((env u).1.isEmpty = true ∧ pageCount + 1 > 1)) :
    scrapeSingleCarGo det env (fuel + 1) (some u) pageCount acc =
      scrapeSingleCarGo det env fuel (env u).2 (pageCount + 1)
        (acc ++ (env u).1.map (attachManufacturerCode det)) := by
  simp only [scrapeSingleCarGo, if_neg h]

theorem carGo_pages_ge (det : Str → Option Str) (env : Str → List ProductC × Option Str) :
    ∀ (fuel : Nat) (cur : Option Str) (pageCount : Nat) (acc : List ProductC),
      pageCount ≤ (scrapeSingleCarGo det env fuel cur pageCount acc).pages := by
  intro fuel
  induction fuel with
  | zero =>
    intro cur pageCount acc
    cases cur <;> exact le_refl _
  | succ fuel ih =>
    intro cur pageCount acc
    cases cur with
    | none => exact le_refl _
    | some u =>
      by_cases h : (env u).1.isEmpty = true ∧ pageCount + 1 > 1
      · rw [carGo_succ_some_stop h]; exact Nat.le_succ _
      · rw [carGo_succ_some_go h]
        exact le_trans (Nat.le_succ _) (ih (env u).2 (pageCount + 1) _)

theorem carGo_pages_ge_one (det : Str → Option Str) (env : Str → List ProductC × Option Str)
    (fuel pageCount : Nat) (u : Str) (acc : List ProductC) :
    pageCount + 1 ≤ (scrapeSingleCarGo det env (fuel + 1) (some u) pageCount acc).pages := by
  by_cases h : (env u).1.isEmpty = true ∧ pageCount + 1 > 1
  · rw [carGo_succ_some_stop h]
  · rw [carGo_succ_some_go h]
    exact carGo_pages_ge det env fuel (env u).2 (pageCount + 1) _

/-! ## Claim C5 — the empty-page termination rule -/

/-- C5.  In each of the three walkers: a page that yields zero summaries ends
the walk when it is not the first page (the walk returns at once with the
accumulator untouched and exactly one more page counted), while a FIRST
empty page does not by itself end the walk — when a next-page link exists
(and, in `scrapeAllPages`, differs from the current URL), at least a second
page is fetched. -/
theorem emptyPage_termination_rule :
    (∀ (σ π : Type) (merge : List σ → List π) (env : Str → List σ × Option Str)
       (fuel count : Nat) (u : Str) (acc : List π),
        1 ≤ count → (env u).1 = [] →
        walkGo merge env (fuel + 1) (some u) count acc = ⟨acc, count + 1⟩) ∧
    (∀ (σ π : Type) (merge : List σ → List π) (env : Str → List σ × Option Str)
       (start v : Str),
        (env start).1 = [] → (env start).2 = some v → ¬v = start →
        2 ≤ (scrapeAllPages merge env start).pages) ∧
    (∀ (det : Str → Option Str) (env : Str → List ProductC × Option Str)
       (fuel pageCount : Nat) (u : Str) (acc : List ProductC),
        1 ≤ pageCount → (env u).1 = [] →
        scrapeSingleCarGo det env (fuel + 1) (some u) pageCount acc =
          ⟨acc, pageCount + 1, true⟩) ∧
    (∀ (det : Str → Option Str) (env : Str → List ProductC × Option Str)
       (fuel : Nat) (start : Str),
        (env start).1 = [] → ¬(env start).2 = none →
        2 ≤ (scrapeSingleCarGo det env (fuel + 2) (some start) 0 []).pages) := by
  refine ⟨?_, ?_, ?_, ?_⟩
  · intro σ π merge env fuel count u acc hc he
    exact walkGo_succ_some_stop ⟨by simp [he], by omega⟩
  · intro σ π merge env start v he hnext hv
    show 2 ≤ (walkGo merge env (999 + 1) (some start) 0 []).pages
    rw [walkGo_succ_some_go (by simp [he]) (by rw [hnext]; intro hx; exact hv (Option.some.inj hx)),
      hnext]
    exact walkGo_pages_ge_one merge env 998 1 v _
  · intro det env fuel pageCount u acc hc he
    exact carGo_succ_some_stop ⟨by simp [he], by omega⟩
  · intro det env fuel start he hnext
    rw [carGo_succ_some_go (by simp [he])]
    cases hn : (env start).2 with
    | none => exact absurd hn hnext
    | some v => exact carGo_pages_ge_one det env fuel 1 v _

/-- An all-null grouped-variant product, used as page content in concrete
walker environments. -/
def blankProductC : ProductC :=
  ⟨none, none, none, none, none, none, none, false, none, none, none⟩

/-- A walk whose first page is empty but links to a second, non-empty page. -/
def firstEmptyEnv : Str → List Unit × Option Str := fun u =>
  if u = "a".data then ([], some "b".data) else ([()], none)

/-- The grouped-variant counterpart of `firstEmptyEnv`. -/
def firstEmptyCarEnv : Str → List ProductC × Option Str := fun u =>
  if u = "a".data then ([], some "b".data) else ([blankProductC], none)

theorem emptyPage_termination_rule_witness :
    (1 ≤ 1 ∧ (firstEmptyEnv "a".data).1 = [] ∧
      walkGo (fun l : List Unit => l) firstEmptyEnv 3 (some "a".data) 1 [] = ⟨[], 2⟩) ∧
    ((firstEmptyEnv "a".data).1 = [] ∧ (firstEmptyEnv "a".data).2 = some "b".data ∧
      ¬"b".data = "a".data ∧
      2 ≤ (scrapeAllPages (fun l : List Unit => l) firstEmptyEnv "a".data).pages) ∧
    (scrapeSingleCarGo (fun _ => none) firstEmptyCarEnv 3 (some "a".data) 1 [] =
      ⟨[], 2, true⟩) ∧
    2 ≤ (scrapeSingleCarGo (fun _ => none) firstEmptyCarEnv 3 (some "a".data) 0 []).pages :=
  ⟨⟨by decide, by decide,
      emptyPage_termination_rule.1 Unit Unit _ firstEmptyEnv 2 1 "a".data []
        (by decide) (by decide)⟩,
   ⟨by decide, by decide, by decide,
      emptyPage_termination_rule.2.1 Unit Unit _ firstEmptyEnv "a".data "b".data
        (by decide) (by decide) (by decide)⟩,
   emptyPage_termination_rule.2.2.1 (fun _ => none) firstEmptyCarEnv 2 1 "a".data []
     (by decide) (by decide),
   emptyPage_termination_rule.2.2.2 (fun _ => none) firstEmptyCarEnv 1 "a".data
     (by decide) (by decide)⟩

/-! ## Claim C3 — the cycle guard -/

/-- A two-page cycle: page `a` links to page `b`, every other page (in
particular `b`) links back to `a`; every page yields one summary. -/
def cycEnvA : Str → List Unit × Option Str := fun u =>
  if u = "a".data then ([()], some "b".data) else ([()], some "a".data)

theorem cycEnvA_walk_pages :
    ∀ (fuel count : Nat) (acc : List Unit) (u : Str),
      (walkGo (fun l : List Unit => l) cycEnvA fuel (some u) count acc).pages =
        count + fuel := by
  intro fuel
  induction fuel with
  | zero => intro count acc u; rfl
  | succ fuel ih =>
    intro count acc u
    by_cases hu : u = "a".data
    · subst hu
      rw [walkGo_succ_some_go (by simp [cycEnvA]) (by decide)]
      rw [show (cycEnvA "a".data).2 = some "b".data from rfl, ih]
      omega
    · have h2 : ¬(cycEnvA u).2 = some u := by
        simp only [cycEnvA, if_neg hu]
        intro hx
        exact hu (Option.some.inj hx).symm
      have hv : (cycEnvA u).2 = some "a".data := by
        simp only [cycEnvA, if_neg hu]
      rw [walkGo_succ_some_go (by simp [cycEnvA, hu]) h2, hv, ih]
      omega

/-- C3 counterexample.  With page 2's "next" link resolving to page 1's URL,
the walker does NOT stop after page 2: the guard only compares the next URL
with the CURRENT page's URL, so the walk keeps alternating between the two
pages and fetches the full 1000-page ceiling. -/
theorem pageTwoToPageOne_cycle_not_stopped :
    (scrapeAllPages (fun l : List Unit => l) cycEnvA "a".data).pages = 1000 ∧
    ¬(scrapeAllPages (fun l : List Unit => l) cycEnvA "a".data).pages = 2 := by
  have h : (scrapeAllPages (fun l : List Unit => l) cycEnvA "a".data).pages = 1000 := by
    have h2 := cycEnvA_walk_pages MAX_CATALOG_PAGES 0 [] "a".data
    rw [Nat.zero_add] at h2
    exact h2
  exact ⟨h, by rw [h]; omega⟩

/-- C3 amended.  The cycle guard stops the walk only when the resolved next
URL equals the CURRENT page's URL (a self-loop): in that case the walk ends
right after that page.  A next URL that revisits an earlier, non-current
page (page 2 linking back to page 1) does not trigger the guard, and that
walk runs on to the hard page ceiling of 1000 fetched pages. -/
theorem cycleGuard_selfLoop_only :
    (∀ (σ π : Type) (merge : List σ → List π) (env : Str → List σ × Option Str)
       (u : Str) (fuel count : Nat) (acc : List π),
        (env u).2 = some u →
        (walkGo merge env (fuel + 1) (some u) count acc).pages = count + 1) ∧
    (scrapeAllPages (fun l : List Unit => l) cycEnvA "a".data).pages = MAX_CATALOG_PAGES := by
  constructor
  · intro σ π merge env u fuel count acc h2
    by_cases h : (env u).1.isEmpty = true ∧ count + 1 > 1
    · rw [walkGo_succ_some_stop h]
    · rw [walkGo_succ_some_cycle h h2]
  · have h2 := cycEnvA_walk_pages MAX_CATALOG_PAGES 0 [] "a".data
    rw [Nat.zero_add] at h2
    exact h2

/-- A page whose "next" link resolves to its own URL. -/
def selfLoopEnv : Str → List Unit × Option Str := fun _ => ([()], some "a".data)

theorem cycleGuard_selfLoop_only_witness :
    (selfLoopEnv "a".data).2 = some "a".data ∧
    (walkGo (fun l : List Unit => l) selfLoopEnv 5 (some "a".data) 0 []).pages = 0 + 1 :=
  ⟨rfl, cycleGuard_selfLoop_only.1 Unit Unit (fun l => l) selfLoopEnv "a".data 4 0 [] rfl⟩

/-! ## Claim C7 — the hard page-count ceiling -/

/-- A grouped-variant walk where every page yields one product and links to
itself. -/
def carCycleEnv : Str → List ProductC × Option Str := fun _ => ([blankProductC], some "a".data)

theorem carCycleEnv_pages :
    ∀ (fuel pageCount : Nat) (acc : List ProductC) (u : Str),
      (scrapeSingleCarGo (fun _ => none) carCycleEnv fuel (some u) pageCount acc).pages =
          pageCount + fuel ∧
      (scrapeSingleCarGo (fun _ => none) carCycleEnv fuel (some u) pageCount acc).finished =
          false := by
  intro fuel
  induction fuel with
  | zero => intro pageCount acc u; exact ⟨rfl, rfl⟩
  | succ fuel ih =>
    intro pageCount acc u
    rw [carGo_succ_some_go (by simp [carCycleEnv])]
    rw [show (carCycleEnv u).2 = some "a".data from rfl]
    exact ⟨by rw [(ih (pageCount + 1) _ "a".data).1]; omega, (ih (pageCount + 1) _ "a".data).2⟩

/-- C7 counterexample.  The grouped variant's pagination walk
(`scrapeSingleCar`) has no page ceiling at all: its loop is bounded only by
`MAX_PRODUCTS_PER_CAR = Infinity`, and `pageCountForCar` is counted but
never compared.  Observed for 1001 iterations on a self-linking page, it
fetches 1001 listing pages — more than `MAX_CATALOG_PAGES` — and has not
terminated. -/
theorem groupedWalk_exceeds_ceiling :
    (scrapeSingleCarGo (fun _ => none) carCycleEnv 1001 (some "a".data) 0 []).pages = 1001 ∧
    ¬(scrapeSingleCarGo (fun _ => none) carCycleEnv 1001 (some "a".data) 0 []).pages ≤
        MAX_CATALOG_PAGES ∧
    (scrapeSingleCarGo (fun _ => none) carCycleEnv 1001 (some "a".data) 0 []).finished =
      false := by
  have h := carCycleEnv_pages 1001 0 [] "a".data
  exact ⟨h.1, by rw [h.1]; decide, h.2⟩

/-- C7 amended.  The single-catalog walks (`scrapeAllPages`, both variants)
fetch at most `MAX_CATALOG_PAGES` listing pages, and the post-loop warning
(`console.warn`, not an error) fires exactly when the ceiling was reached;
the grouped variant's per-car walk has no page ceiling and can exceed any
bound. -/
theorem pageCeiling_singleCatalog_only :
    (∀ (σ π : Type) (merge : List σ → List π) (env : Str → List σ × Option Str)
       (start : Str),
        (scrapeAllPages merge env start).pages ≤ MAX_CATALOG_PAGES ∧
        ((scrapeAllPages merge env start).ceilingWarned = true ↔
          (scrapeAllPages merge env start).pages = MAX_CATALOG_PAGES)) ∧
    (scrapeSingleCarGo (fun _ => none) carCycleEnv (MAX_CATALOG_PAGES + 1)
        (some "a".data) 0 []).pages = MAX_CATALOG_PAGES + 1 := by
  constructor
  · intro σ π merge env start
    have hle : (walkGo merge env MAX_CATALOG_PAGES (some start) 0 []).pages ≤
        MAX_CATALOG_PAGES :=
      walkGo_pages_le merge env MAX_CATALOG_PAGES (some start) 0 []
    refine ⟨hle, ?_⟩
    show decide ((walkGo merge env MAX_CATALOG_PAGES (some start) 0 []).pages ≥
        MAX_CATALOG_PAGES) = true ↔
      (walkGo merge env MAX_CATALOG_PAGES (some start) 0 []).pages = MAX_CATALOG_PAGES
    rw [decide_eq_true_iff]
    omega
  · have h3 := (carCycleEnv_pages (MAX_CATALOG_PAGES + 1) 0 [] "a".data).1
    rw [Nat.zero_add] at h3
    exact h3

/-! ## Claim C6 — merged image-URL sets -/

/-- The synthesized placeholder URL,
`new URL("/img/default-image.png", BASE_URL).toString()`. -/
def placeholderUrl : Str := "https://www.fastdeliverycarparts.com/img/default-image.png".data

theorem placeholderUrl_includes_filename :
    jsIncludes placeholderUrl placeholderFilename = true := by decide

/-- Each thumb step either leaves `imageUrls` unchanged or pushes one URL
that is not the placeholder and not already present. -/
theorem addThumb_cases (resolve : Str → Option Str) (mainUrl : Option Str)
    (acc : List Str) (thumb : Option Str × Option Str) :
    addThumb resolve mainUrl acc thumb = acc ∨
      ∃ u, addThumb resolve mainUrl acc thumb = acc ++ [u] ∧
        jsIncludes u placeholderFilename = false ∧ u ∉ acc := by
  rcases thumb with ⟨_ | p, f?⟩
  · exact Or.inl rfl
  rcases f? with _ | f
  · exact Or.inl rfl
  by_cases he : (p.isEmpty || f.isEmpty) = true
  · exact Or.inl (by simp only [addThumb, if_pos he])
  rcases hr : resolve (p ++ f) with _ | u
  · exact Or.inl (by simp only [addThumb, if_neg he, hr])
  by_cases hph : jsIncludes u placeholderFilename = true
  · exact Or.inl (by simp only [addThumb, if_neg he, hr, if_pos hph])
  by_cases hmain : some u = mainUrl
  · exact Or.inl (by simp only [addThumb, if_neg he, hr, if_neg hph, if_pos hmain])
  by_cases hmem : u ∈ acc
  · exact Or.inl
      (by simp only [addThumb, if_neg he, hr, if_neg hph, if_neg hmain, if_pos hmem])
  refine Or.inr ⟨u, ?_, ?_, hmem⟩
  · simp only [addThumb, if_neg he, hr, if_neg hph, if_neg hmain, if_neg hmem]
  · simpa using hph

/-- The main-image step yields a duplicate-free accumulator none of whose
members contains the placeholder filename. -/
theorem scanMainImage_inv (resolve : Str → Option Str) (src? : Option Str) :
    (scanMainImage resolve src?).2.Nodup ∧
      ∀ u ∈ (scanMainImage resolve src?).2, jsIncludes u placeholderFilename = false := by
  rcases src? with _ | src
  · simp [scanMainImage]
  by_cases he : src.isEmpty = true
  · rw [show scanMainImage resolve (some src) = (none, []) from
      by simp only [scanMainImage, if_pos he]]
    simp
  rcases hr : resolve src with _ | u0
  · rw [show scanMainImage resolve (some src) = (none, []) from
      by simp only [scanMainImage, if_neg he, hr]]
    simp
  by_cases hph : jsIncludes (removeUnderscoreDir u0) placeholderFilename = true
  · rw [show scanMainImage resolve (some src) = (none, []) from
      by simp only [scanMainImage, if_neg he, hr, if_pos hph]]
    simp
  rw [show scanMainImage resolve (some src) =
      (some (removeUnderscoreDir u0), [removeUnderscoreDir u0]) from
    by simp only [scanMainImage, if_neg he, hr, if_neg hph]]
  refine ⟨List.nodup_singleton _, ?_⟩
  intro u hu
  rw [List.mem_singleton] at hu
  subst hu
  simpa using hph

theorem foldl_addThumb_inv (resolve : Str → Option Str) (mainUrl : Option Str) :
    ∀ (thumbs : List (Option Str × Option Str)) (acc : List Str),
      acc.Nodup → (∀ u ∈ acc, jsIncludes u placeholderFilename = false) →
      (thumbs.foldl (addThumb resolve mainUrl) acc).Nodup ∧
        ∀ u ∈ thumbs.foldl (addThumb resolve mainUrl) acc,
          jsIncludes u placeholderFilename = false := by
  intro thumbs
  induction thumbs with
  | nil => intro acc h1 h2; exact ⟨h1, h2⟩
  | cons t ts ih =>
    intro acc h1 h2
    rw [List.foldl_cons]
    rcases addThumb_cases resolve mainUrl acc t with heq | ⟨u, heq, hph, hmem⟩
    · rw [heq]
      exact ih acc h1 h2
    · rw [heq]
      refine ih (acc ++ [u]) ?_ ?_
      · simp [List.nodup_append, h1, hmem]
      · intro v hv
        rcases List.mem_append.mp hv with hv | hv
        · exact h2 v hv
        · rw [List.mem_singleton] at hv
          subst hv
          exact hph

theorem scanDetailImages_inv (resolve : Str → Option Str) (page : DetailPageV2) :
    (scanDetailImages resolve page).Nodup ∧
      ∀ u ∈ scanDetailImages resolve page, jsIncludes u placeholderFilename = false := by
  unfold scanDetailImages
  obtain ⟨h1, h2⟩ := scanMainImage_inv resolve page.mainImgSrc
  exact foldl_addThumb_inv resolve (scanMainImage resolve page.mainImgSrc).1 page.thumbs
    (scanMainImage resolve page.mainImgSrc).2 h1 h2

theorem detailImageUrls_of_scan_nil {resolve : Str → Option Str} {page : DetailPageV2}
    (h : scanDetailImages resolve page = [])
    (hres : resolve placeholderPath = some placeholderUrl) :
    detailImageUrls resolve page = [placeholderUrl] := by
  unfold detailImageUrls
  rw [h, hres]
  rfl

theorem detailImageUrls_of_scan_cons {resolve : Str → Option Str} {page : DetailPageV2}
    (h : ¬scanDetailImages resolve page = []) :
    detailImageUrls resolve page = scanDetailImages resolve page := by
  unfold detailImageUrls
  rw [if_neg]
  simpa using h

/-- C6.  For every detail page: the final image-URL set has no duplicates;
whenever the scan found at least one real (non-placeholder) image the final
set is exactly the scanned set and does not contain the placeholder URL; and
the placeholder URL is synthesized exactly when the scanned set is empty. -/
theorem detailImages_placeholder_discipline (resolve : Str → Option Str)
    (page : DetailPageV2) (hres : resolve placeholderPath = some placeholderUrl) :
    (detailImageUrls resolve page).Nodup ∧
    (scanDetailImages resolve page ≠ [] →
      detailImageUrls resolve page = scanDetailImages resolve page ∧
      placeholderUrl ∉ detailImageUrls resolve page) ∧
    (scanDetailImages resolve page = [] →
      detailImageUrls resolve page = [placeholderUrl]) := by
  obtain ⟨hnd, hniph⟩ := scanDetailImages_inv resolve page
  by_cases h : scanDetailImages resolve page = []
  · refine ⟨?_, fun hc => absurd h hc, fun _ => detailImageUrls_of_scan_nil h hres⟩
    rw [detailImageUrls_of_scan_nil h hres]
    exact List.nodup_singleton _
  · have heq := detailImageUrls_of_scan_cons h
    refine ⟨heq ▸ hnd, fun _ => ⟨heq, ?_⟩, fun hc => absurd hc h⟩
    rw [heq]
    intro hmem
    have hfalse := hniph placeholderUrl hmem
    rw [placeholderUrl_includes_filename] at hfalse
    simp at hfalse

/-! ## Claim C9 — the inclusion condition of the URL-SKU Listing Extractor

The inclusion test `name || siteCode || sku || price !== null || productPageUrl`
uses JavaScript truthiness, under which `""` would also be falsy; the lemmas
below show each of the four string fields is never the empty string, so
truthiness coincides with being non-null. -/

theorem takeWhile_head_eq {q : Char → Bool} {l : Str} {c : Char} {t : Str}
    (h : l.takeWhile q = c :: t) : ∃ t2, l = c :: t2 := by
  cases l with
  | nil => simp at h
  | cons a l2 =>
    rw [List.takeWhile_cons] at h
    by_cases hq : q a = true
    · rw [if_pos hq] at h
      injection h with h1 _
      exact ⟨l2, by rw [h1]⟩
    · rw [if_neg hq] at h
      cases h

theorem dropWhile_head_false {p : Char → Bool} {l : Str} {c : Char} {t : Str}
    (h : l.dropWhile p = c :: t) : p c = false := by
  induction l with
  | nil => simp at h
  | cons a l2 ih =>
    rw [List.dropWhile_cons] at h
    by_cases hp : p a = true
    · rw [if_pos hp] at h
      exact ih h
    · rw [if_neg hp] at h
      injection h with h1 _
      rw [← h1]
      simpa using hp

theorem jsTrim_ne_nil_of_head {c : Char} {t : Str} (hc : Char.isWhitespace c = false) :
    jsTrim (c :: t) ≠ [] := by
  unfold jsTrim
  rw [List.dropWhile_cons, if_neg (by simp [hc])]
  intro hnil
  rw [List.reverse_eq_nil_iff, List.dropWhile_eq_nil_iff] at hnil
  have hcw := hnil c (by simp)
  rw [hc] at hcw
  cases hcw

theorem extractName_ne_nil {raw s : Str} (h : extractName raw = some s) : ¬s = [] := by
  unfold extractName at h
  by_cases ht : (jsTrim raw).isEmpty = true
  · rw [if_pos ht] at h
    cases h
  · rw [if_neg ht] at h
    injection h with h1
    rw [← h1]
    simpa using ht

theorem extractSiteCode_ne_nil {raw s : Str} (h : extractSiteCode raw = some s) :
    ¬s = [] := by
  unfold extractSiteCode at h
  by_cases hct : (jsTrim raw).isEmpty = true
  · rw [if_pos hct] at h
    cases h
  rw [if_neg hct] at h
  cases hm : matchDetalasKods (jsTrim raw) with
  | none =>
    simp only [hm] at h
    cases h
  | some g =>
    simp only [hm] at h
    by_cases hg : g.isEmpty = true
    · rw [if_pos hg] at h
      cases h
    rw [if_neg hg] at h
    injection h with h1
    unfold matchDetalasKods at hm
    cases hf : findAfter detalasKodsLabel (jsTrim raw) with
    | none => rw [hf] at hm; cases hm
    | some rest =>
      rw [hf] at hm
      simp only [Option.map_some'] at hm
      injection hm with hm1
      cases hcg : g with
      | nil => rw [hcg] at hg; simp at hg
      | cons c t =>
        rw [hcg] at hm1
        obtain ⟨t2, hdrop⟩ := takeWhile_head_eq hm1
        have hcw : Char.isWhitespace c = false := dropWhile_head_false hdrop
        rw [← h1, hcg]
        exact jsTrim_ne_nil_of_head hcw

theorem skuFromUrl_ne_nil {u pid : Str} (h : skuFromUrl u = some pid) : ¬pid = [] := by
  simp only [skuFromUrl] at h
  split at h
  · cases h
  · rename_i pid0 hpid0
    split at h
    · rename_i hcond
      injection h with h1
      rw [← h1]
      intro hnil
      rw [hnil] at hcond
      simp at hcond
    · cases h

theorem extractUrlAndSku_ne_nil (resolve : Str → Option Str) (hrefAttr : Option Str)
    (hres : ∀ r u, resolve r = some u → ¬u = []) :
    (∀ u, (extractUrlAndSku resolve hrefAttr).1 = some u → ¬u = []) ∧
    (∀ pid, (extractUrlAndSku resolve hrefAttr).2 = some pid → ¬pid = []) := by
  rcases hrefAttr with _ | rel
  · exact ⟨(fun u h => nomatch h), (fun pid h => nomatch h)⟩
  by_cases hrel : rel.isEmpty = true
  · have heq : extractUrlAndSku resolve (some rel) = (none, none) := by
      simp only [extractUrlAndSku, if_pos hrel]
    rw [heq]
    exact ⟨(fun u h => nomatch h), (fun pid h => nomatch h)⟩
  rcases hr : resolve rel with _ | u0
  · have heq : extractUrlAndSku resolve (some rel) = (none, none) := by
      simp only [extractUrlAndSku, if_neg hrel, hr]
    rw [heq]
    exact ⟨(fun u h => nomatch h), (fun pid h => nomatch h)⟩
  · have heq : extractUrlAndSku resolve (some rel) = (some u0, skuFromUrl u0) := by
      simp only [extractUrlAndSku, if_neg hrel, hr]
    rw [heq]
    constructor
    · intro u h
      injection h with h1
      rw [← h1]
      exact hres rel u0 hr
    · intro pid h
      exact skuFromUrl_ne_nil h

theorem jsTruthy_eq_isSome {o : Option Str} (h : ∀ s, o = some s → ¬s = []) :
    jsTruthy o = o.isSome := by
  cases o with
  | none => rfl
  | some s => simp [jsTruthy, h s rfl]

theorem jsOrNull_eq_self {o : Option Str} (h : ∀ s, o = some s → ¬s = []) :
    jsOrNull o = o := by
  cases o with
  | none => rfl
  | some s => simp [jsOrNull, h s rfl]

theorem isSome_false_eq_none {α : Type} {o : Option α} (h : o.isSome = false) :
    o = none := by
  cases o
  · rfl
  · simp at h

/-- C9.  The URL-SKU variant's Listing Extractor omits a catalog item iff ALL
five of name, siteCode, sku, price and productPageUrl came out null; an item
with at least one of them present is included, and the pushed summary
carries exactly the five extracted (possibly null) values.  The hypothesis
states that `new URL(...).toString()` never yields the empty string. -/
theorem listingItem_included_iff_any_field (resolve : Str → Option Str)
    (jsParseFloat : Str → Option ℚ) (item : CatalogItemV2)
    (hres : ∀ r u, resolve r = some u → ¬u = []) :
    (extractCatalogItemV2 resolve jsParseFloat item = none ↔
      (extractName item.rawName = none ∧ extractSiteCode item.rawCode = none ∧
       (extractUrlAndSku resolve item.hrefAttr).2 = none ∧
       extractPrice jsParseFloat item.priceAttr = none ∧
       (extractUrlAndSku resolve item.hrefAttr).1 = none)) ∧
    (∀ s, extractCatalogItemV2 resolve jsParseFloat item = some s →
      s = ⟨(extractUrlAndSku resolve item.hrefAttr).2, extractSiteCode item.rawCode,
           extractName item.rawName, extractPrice jsParseFloat item.priceAttr,
           (extractUrlAndSku resolve item.hrefAttr).1⟩) := by
  obtain ⟨hu1, hu2⟩ := extractUrlAndSku_ne_nil resolve item.hrefAttr hres
  have hn : jsTruthy (extractName item.rawName) = (extractName item.rawName).isSome :=
    jsTruthy_eq_isSome fun s h => extractName_ne_nil h
  have hs : jsTruthy (extractSiteCode item.rawCode) = (extractSiteCode item.rawCode).isSome :=
    jsTruthy_eq_isSome fun s h => extractSiteCode_ne_nil h
  have hk := jsTruthy_eq_isSome hu2
  have hu := jsTruthy_eq_isSome hu1
  by_cases hc : (jsTruthy (extractName item.rawName) ||
      jsTruthy (extractSiteCode item.rawCode) ||
      jsTruthy (extractUrlAndSku resolve item.hrefAttr).2 ||
      (extractPrice jsParseFloat item.priceAttr).isSome ||
      jsTruthy (extractUrlAndSku resolve item.hrefAttr).1) = true
  · have heq : extractCatalogItemV2 resolve jsParseFloat item =
        some ⟨jsOrNull (extractUrlAndSku resolve item.hrefAttr).2,
              jsOrNull (extractSiteCode item.rawCode),
              jsOrNull (extractName item.rawName),
              extractPrice jsParseFloat item.priceAttr,
              jsOrNull (extractUrlAndSku resolve item.hrefAttr).1⟩ := by
      simp only [extractCatalogItemV2, if_pos hc]
    constructor
    · rw [heq]
      constructor
      · intro hx
        cases hx
      · rintro ⟨h1, h2, h3, h4, h5⟩
        rw [hn, hs, hk, hu, h1, h2, h3, h4, h5] at hc
        simp at hc
    · intro s hx
      rw [heq] at hx
      injection hx with hx1
      rw [← hx1]
      rw [jsOrNull_eq_self hu2, jsOrNull_eq_self (fun s h => extractSiteCode_ne_nil h),
        jsOrNull_eq_self (fun s h => extractName_ne_nil h), jsOrNull_eq_self hu1]
  · have heq : extractCatalogItemV2 resolve jsParseFloat item = none := by
      simp only [extractCatalogItemV2, if_neg hc]
    have hc' := hc
    rw [hn, hs, hk, hu] at hc'
    simp only [Bool.or_eq_true, not_or] at hc'
    obtain ⟨⟨⟨⟨h1, h2⟩, h3⟩, h4⟩, h5⟩ := hc'
    refine ⟨?_, ?_⟩
    · rw [heq]
      simp only [true_iff]
      exact ⟨isSome_false_eq_none (by simpa using h1),
             isSome_false_eq_none (by simpa using h2),
             isSome_false_eq_none (by simpa using h3),
             isSome_false_eq_none (by simpa using h4),
             isSome_false_eq_none (by simpa using h5)⟩
    · intro s hx
      rw [heq] at hx
      cases hx

/-- A concrete URL resolver for the witnesses: prefix with the site origin. -/
def sampleResolve : Str → Option Str :=
  fun s => some ("https://www.fastdeliverycarparts.com".data ++ s)

theorem listingItem_included_iff_any_field_witness :
    (∀ r u, sampleResolve r = some u → ¬u = []) ∧
    ((extractCatalogItemV2 sampleResolve (fun _ => none)
        ⟨" Brake pad ".data, "Detaļas kods: AB12".data, none, some "/detalas/777".data⟩ = none ↔
      (extractName " Brake pad ".data = none ∧
       extractSiteCode "Detaļas kods: AB12".data = none ∧
       (extractUrlAndSku sampleResolve (some "/detalas/777".data)).2 = none ∧
       extractPrice (fun _ => none) none = none ∧
       (extractUrlAndSku sampleResolve (some "/detalas/777".data)).1 = none)) ∧
    (∀ s, extractCatalogItemV2 sampleResolve (fun _ => none)
        ⟨" Brake pad ".data, "Detaļas kods: AB12".data, none, some "/detalas/777".data⟩ =
          some s →
      s = ⟨(extractUrlAndSku sampleResolve (some "/detalas/777".data)).2,
           extractSiteCode "Detaļas kods: AB12".data,
           extractName " Brake pad ".data,
           extractPrice (fun _ => none) none,
           (extractUrlAndSku sampleResolve (some "/detalas/777".data)).1⟩)) :=
  ⟨fun r u h hnil => by
      injection h with h1
      rw [hnil] at h1
      simp [sampleResolve] at h1,
   listingItem_included_iff_any_field sampleResolve (fun _ => none)
     ⟨" Brake pad ".data, "Detaļas kods: AB12".data, none, some "/detalas/777".data⟩
     (fun r u h hnil => by
        injection h with h1
        rw [hnil] at h1
        simp [sampleResolve] at h1)⟩

/-- A concrete detail page for the C6 witness: one main image and one thumb. -/
def samplePage : DetailPageV2 :=
  ⟨some "/a.jpg".data, [(some "/p/".data, some "b.jpg".data)]⟩

theorem detailImages_placeholder_discipline_witness :
    sampleResolve placeholderPath = some placeholderUrl ∧
    ((detailImageUrls sampleResolve samplePage).Nodup ∧
     (scanDetailImages sampleResolve samplePage ≠ [] →
       detailImageUrls sampleResolve samplePage =
         scanDetailImages sampleResolve samplePage ∧
       placeholderUrl ∉ detailImageUrls sampleResolve samplePage) ∧
     (scanDetailImages sampleResolve samplePage = [] →
       detailImageUrls sampleResolve samplePage = [placeholderUrl])) :=
  ⟨by decide, detailImages_placeholder_discipline sampleResolve samplePage (by decide)⟩

/-! ## Claim C4 — the header row appears exactly once -/

theorem jsJoin_append (sep : Str) :
    ∀ (l1 l2 : List Str), l1 ≠ [] → l2 ≠ [] →
      jsJoin sep (l1 ++ l2) = jsJoin sep l1 ++ sep ++ jsJoin sep l2 := by
  intro l1
  induction l1 with
  | nil => intro l2 h1 _; exact absurd rfl h1
  | cons a t ih =>
    intro l2 h1 h2
    cases t with
    | nil =>
      cases l2 with
      | nil => exact absurd rfl h2
      | cons c t2 => rfl
    | cons b t' =>
      have hne : (b :: t') ≠ [] := by simp
      show jsJoin sep (a :: (b :: t') ++ l2) = _
      rw [show (a :: (b :: t') ++ l2 : List Str) = a :: ((b :: t') ++ l2) from rfl]
      rw [show jsJoin sep (a :: ((b :: t') ++ l2)) =
          a ++ sep ++ jsJoin sep ((b :: t') ++ l2) from rfl]
      rw [ih l2 hne h2]
      simp [jsJoin, List.append_assoc]

theorem jsJoin_cons_shape (sep : Str) (a : Str) (t : List Str) :
    ∃ r, jsJoin sep (a :: t) = a ++ r := by
  cases t with
  | nil => exact ⟨[], by simp [jsJoin]⟩
  | cons b t' =>
    refine ⟨sep ++ jsJoin sep (b :: t'), ?_⟩
    rw [← List.append_assoc]
    rfl

theorem rowLine_shape (i : Nat) (p : ProductC) :
    ∃ r, rowLine i p = '"' :: '"' :: ',' :: r := ⟨_, rfl⟩

theorem headerLine_shape : ∃ r, headerLine = '"' :: 'I' :: r := ⟨_, rfl⟩

theorem rowLine_ne_headerLine (i : Nat) (p : ProductC) : rowLine i p ≠ headerLine := by
  obtain ⟨r, hr⟩ := rowLine_shape i p
  obtain ⟨r2, hr2⟩ := headerLine_shape
  rw [hr, hr2]
  intro h
  injection h with h1 h2
  injection h2 with h3 _
  cases h3

theorem mapIdxFrom_cons {α β : Type} (f : Nat → α → β) (n : Nat) (a : α) (l : List α) :
    mapIdxFrom f n (a :: l) = f n a :: mapIdxFrom f (n + 1) l := rfl

theorem mapIdxFrom_eq_nil_iff {α β : Type} (f : Nat → α → β) (n : Nat) (l : List α) :
    mapIdxFrom f n l = [] ↔ l = [] := by
  cases l with
  | nil => simp [mapIdxFrom]
  | cons a t => simp [mapIdxFrom_cons]

theorem mem_mapIdxFrom {α β : Type} {f : Nat → α → β} {x : β} :
    ∀ {n : Nat} {l : List α}, x ∈ mapIdxFrom f n l → ∃ i a, x = f i a := by
  intro n l
  induction l generalizing n with
  | nil => intro h; cases h
  | cons a t ih =>
    intro h
    rw [mapIdxFrom_cons] at h
    rcases List.mem_cons.mp h with h | h
    · exact ⟨n, a, h⟩
    · exact ih h

/-- The serialized data rows of the persisted batches, in file order (row
indices restart at `0` in every batch, exactly as `Array.prototype.map`'s
index does in each `convertBatchToWooCommerceCSV` call). -/
def batchRowLines (bs : List (List ProductC)) : List Str :=
  (bs.map fun b => mapIdxFrom rowLine 0 b).flatten

/-- The header-discipline invariant of the persisted output file: before the
first batch the file is empty and the header flag unset; afterwards the file
is exactly the header line followed by the rows of the saved batches, CRLF
separated, and every saved batch is non-empty. -/
def FileInv (st : RunState) : Prop :=
  (st.batches = [] ∧ st.isHeaderWritten = false ∧ st.file = []) ∨
  (st.batches ≠ [] ∧ st.isHeaderWritten = true ∧
    st.file = jsJoin CRLF (headerLine :: batchRowLines st.batches) ∧
    ∀ b ∈ st.batches, b ≠ [])

theorem saveBrandBatch_FileInv (st : RunState) (batch : List ProductC)
    (h : FileInv st) : FileInv (saveBrandBatch st batch) := by
  by_cases hb : batch.length > 0
  · have hbne : batch ≠ [] := by
      intro hx
      rw [hx] at hb
      simp at hb
    rcases h with ⟨h1, h2, h3⟩ | ⟨h1, h2, h3, h4⟩
    · have heq : saveBrandBatch st batch =
          { st with
            file := convertBatchToWooCommerceCSV batch true,
            isHeaderWritten := true,
            batches := st.batches ++ [batch],
            events := st.events ++ [.wroteFile] } := by
        simp only [saveBrandBatch, if_pos hb, if_pos (by rw [h2]; rfl :
          (!st.isHeaderWritten) = true)]
      rw [heq]
      right
      refine ⟨by simp, rfl, ?_, ?_⟩
      · show convertBatchToWooCommerceCSV batch true =
          jsJoin CRLF (headerLine :: batchRowLines (st.batches ++ [batch]))
        rw [h1]
        simp [convertBatchToWooCommerceCSV, batchRowLines]
      · intro b hbm
        rw [h1] at hbm
        have hbm2 : b = batch := by simpa using hbm
        rw [hbm2]
        exact hbne
    · have hw : ¬(!st.isHeaderWritten) = true := by
        rw [h2]
        exact Bool.false_ne_true
      obtain ⟨p, t, rfl⟩ : ∃ p t, batch = p :: t := by
        cases batch with
        | nil => exact absurd rfl hbne
        | cons p t => exact ⟨p, t, rfl⟩
      have htrim : (jsTrim (convertBatchToWooCommerceCSV (p :: t) false)).length > 0 := by
        have hconv : convertBatchToWooCommerceCSV (p :: t) false =
            jsJoin CRLF (rowLine 0 p :: mapIdxFrom rowLine 1 t) := by
          simp [convertBatchToWooCommerceCSV, mapIdxFrom_cons]
        obtain ⟨r, hr⟩ := jsJoin_cons_shape CRLF (rowLine 0 p) (mapIdxFrom rowLine 1 t)
        obtain ⟨x, hx⟩ := rowLine_shape 0 p
        rw [hconv, hr, hx]
        exact List.length_pos.mpr (jsTrim_ne_nil_of_head (by decide))
      have hfl : st.file.length > 0 := by
        obtain ⟨r, hr⟩ := jsJoin_cons_shape CRLF headerLine (batchRowLines st.batches)
        rw [h3, hr, List.length_append]
        have hh : headerLine.length > 0 := by decide
        omega
      have heq : saveBrandBatch st (p :: t) =
          { st with
            file := st.file ++ CRLF ++ convertBatchToWooCommerceCSV (p :: t) false,
            batches := st.batches ++ [p :: t],
            events := st.events ++ [.appendedFile] } := by
        simp only [saveBrandBatch, if_pos hb, if_neg hw, if_pos htrim, if_pos hfl]
      rw [heq]
      right
      refine ⟨by simp, h2, ?_, ?_⟩
      · show st.file ++ CRLF ++ convertBatchToWooCommerceCSV (p :: t) false =
          jsJoin CRLF (headerLine :: batchRowLines (st.batches ++ [p :: t]))
        have hconv : convertBatchToWooCommerceCSV (p :: t) false =
            jsJoin CRLF (mapIdxFrom rowLine 0 (p :: t)) := by
          simp [convertBatchToWooCommerceCSV]
        rw [h3, hconv,
          ← jsJoin_append CRLF (headerLine :: batchRowLines st.batches)
            (mapIdxFrom rowLine 0 (p :: t)) (by simp)
            (by rw [Ne, mapIdxFrom_eq_nil_iff]; exact hbne)]
        congr 1
        simp [batchRowLines]
      · intro b hbm
        rcases List.mem_append.mp hbm with hbm | hbm
        · exact h4 b hbm
        · rw [List.mem_singleton.mp hbm]
          exact hbne
  · have heq : saveBrandBatch st batch = st := by
      simp only [saveBrandBatch, if_neg hb]
    rw [heq]
    exact h

theorem brandLoop_FileInv (maxTotal : Nat) (leafEnv : Str → Str → Str → List ProductC) :
    ∀ (bs : List (Str × List (Str × List Str))) (total : Nat) (st : RunState),
      FileInv st → FileInv (brandLoop maxTotal leafEnv bs total st).2 := by
  intro bs
  induction bs with
  | nil => intro total st h; exact h
  | cons hd bs ih =>
    obtain ⟨b, models⟩ := hd
    intro total st h
    by_cases hex : (modelLoop maxTotal leafEnv b models total [] st.events).exit = .brandBreak
    · rw [brandLoop_cons_break hex]
      exact h
    · rw [brandLoop_cons_save hex]
      have hsave : FileInv (saveBrandBatch
          { st with events := (modelLoop maxTotal leafEnv b models total [] st.events).events }
          (modelLoop maxTotal leafEnv b models total [] st.events).batch) :=
        saveBrandBatch_FileInv _ _ h
      by_cases h2 : (modelLoop maxTotal leafEnv b models total [] st.events).total ≥ maxTotal
      · rw [if_pos h2]
        exact hsave
      · rw [if_neg h2]
        exact ih _ _ hsave

/-- C4.  In every grouped run that persists at least one batch, the output
file is exactly one header line followed by the serialized data rows of the
persisted batches, joined by CRLF (the record separator having been inserted
before each appended rows-only block, never producing a run-on line), and
the header line occurs exactly once among the file's lines: every data row
differs from it. -/
theorem header_row_exactly_once (maxTotal : Nat)
    (leafEnv : Str → Str → Str → List ProductC) (tree : BrandModelsData) (initFile : Str)
    (h : (scrapeAllCars maxTotal (some tree) leafEnv initFile).2.batches ≠ []) :
    (scrapeAllCars maxTotal (some tree) leafEnv initFile).2.file =
      jsJoin CRLF (headerLine ::
        batchRowLines (scrapeAllCars maxTotal (some tree) leafEnv initFile).2.batches) ∧
    (headerLine ::
      batchRowLines (scrapeAllCars maxTotal (some tree) leafEnv initFile).2.batches).count
        headerLine = 1 := by
  have hinv : FileInv (scrapeAllCars maxTotal (some tree) leafEnv initFile).2 :=
    brandLoop_FileInv maxTotal leafEnv tree 0 ⟨[], false, [], [.truncatedFile]⟩
      (Or.inl ⟨rfl, rfl, rfl⟩)
  rcases hinv with ⟨hb, _, _⟩ | ⟨_, _, hfile, _⟩
  · exact absurd hb h
  · refine ⟨hfile, ?_⟩
    rw [List.count_cons_self]
    have hz : (batchRowLines
        (scrapeAllCars maxTotal (some tree) leafEnv initFile).2.batches).count
          headerLine = 0 := by
      rw [List.count_eq_zero]
      intro hmem
      simp only [batchRowLines] at hmem
      obtain ⟨l, hl, hmem2⟩ := List.mem_flatten.mp hmem
      obtain ⟨b, _, rfl⟩ := List.mem_map.mp hl
      obtain ⟨i, p, hx⟩ := mem_mapIdxFrom hmem2
      exact rowLine_ne_headerLine i p hx.symm
    rw [hz]

/-- A one-brand, one-model, one-year tree for the C4 witness. -/
def oneLeafTree : BrandModelsData := [("B".data, [("M".data, ["Y".data])])]

/-- Its single leaf yields one product. -/
def oneLeafEnv : Str → Str → Str → List ProductC := fun _ _ _ => [blankProductC]

theorem header_row_exactly_once_witness :
    (scrapeAllCars 5 (some oneLeafTree) oneLeafEnv []).2.batches ≠ [] ∧
    ((scrapeAllCars 5 (some oneLeafTree) oneLeafEnv []).2.file =
      jsJoin CRLF (headerLine ::
        batchRowLines (scrapeAllCars 5 (some oneLeafTree) oneLeafEnv []).2.batches) ∧
     (headerLine ::
       batchRowLines (scrapeAllCars 5 (some oneLeafTree) oneLeafEnv []).2.batches).count
         headerLine = 1) :=
  ⟨by decide, header_row_exactly_once 5 oneLeafEnv oneLeafTree [] (by decide)⟩
